import Mathlib

/-!
Mini VLC playlist controller (`src/app.js`).

A shallow embedding of the playlist store, the object-URL registry, the two
storage tiers and the session restore of `src/app.js`, followed by theorems
about them.

Modelling conventions

* The module-level variables of `app.js` are the fields of `State`; every
  function of the source becomes a function on `State`.
* A JavaScript value read from a persisted document is a `Json`; the value
  `undefined` (a property that is absent) is `none : Option Json`.
* A playlist entry is a JavaScript object, kept as its list of properties.
* `crypto.randomUUID()` and `Math.random()` are choices of the platform: the
  chosen id and the drawn number are arguments of the functions that use them.
* `localStorage` holds text; a stored text is identified with the outcome of
  `JSON.parse` on it (`Persisted`).
* IndexedDB requests are run to completion in the order they are issued.
  Rendering functions (`renderPlaylist`, `highlightActive`,
  `updateMediaSurface`, `updatePlayButton`) only touch the DOM and are left out.
-/

namespace MiniVlc

/-! ## JavaScript values -/

/-- A JSON value, as `JSON.parse` returns it. -/
inductive Json where
  | null
  | bool (b : Bool)
  | num (q : ℚ)
  | str (s : String)
  | arr (items : List Json)
  | obj (fields : List (String × Json))

/-- JavaScript truthiness of a defined value. -/
def Json.truthy : Json → Bool
  | .null => false
  | .bool b => b
  | .num q => decide (q ≠ 0)
  | .str s => decide (s ≠ "")
  | .arr _ => true
  | .obj _ => true

/-- JavaScript truthiness; `none` is `undefined`. -/
def truthy : Option Json → Bool
  | none => false
  | some v => v.truthy

/-- The test `v === s` for a string `s`. -/
def Json.isStr (v : Json) (s : String) : Bool :=
  match v with
  | .str t => decide (t = s)
  | _ => false

/-- A JavaScript object: its own properties, in insertion order. -/
abbrev Obj := List (String × Json)

/-- Property read `o.k`; `none` when the property is absent. -/
def Obj.prop (o : Obj) (k : String) : Option Json :=
  List.lookup k o

/-- The object `{...o, k: v}`: an existing property keeps its position. -/
def Obj.assign : Obj → String → Json → Obj
  | [], k, v => [(k, v)]
  | (k', v') :: rest, k, v =>
    if k' = k then (k, v) :: rest else (k', v') :: Obj.assign rest k v

/-- The object `{...o, k: v}` as `JSON.stringify` writes it: a property whose
value is `undefined` is omitted from the text. -/
def Obj.assignOpt (o : Obj) (k : String) (v : Option Json) : Obj :=
  match v with
  | some x => Obj.assign o k x
  | none => o.filter (fun p => decide (p.1 ≠ k))

/-! ## Platform objects -/

/-- A `File` handed over by the file input: the two properties the code reads. -/
structure File where
  name : String
  type : String
  deriving DecidableEq

/-- A blob URL minted by `URL.createObjectURL`; the platform never returns the
same URL twice, which the serial number stands for. -/
structure ObjectUrl where
  serial : Nat
  deriving DecidableEq

/-- The text of a blob URL. -/
def ObjectUrl.href (u : ObjectUrl) : String :=
  "blob:" ++ toString u.serial

/-- A record of the IndexedDB store "files" (key path `id`), as `saveFileBlob`
puts it: `saveFileBlob` is the only writer, its ids are the strings of
`randomId`, and it refuses a falsy blob. -/
structure FileRecord where
  id : String
  blob : File
  deriving DecidableEq

/-- The `src` attribute of the media element. -/
inductive SrcAttr where
  | absent
  | assigned (v : Option Json)

/-- The `<video>` element, reduced to what the code sets and reads. -/
structure MediaElement where
  src : SrcAttr
  paused : Bool
  currentTime : ℚ
  loop : Bool
  volume : ℚ
  muted : Bool

/-- `mediaElement.pause()`. -/
def MediaElement.pause (m : MediaElement) : MediaElement :=
  { m with paused := true }

/-- `mediaElement.play()`; a rejected promise (autoplay blocked) is swallowed
by the caller and not modelled. -/
def MediaElement.play (m : MediaElement) : MediaElement :=
  { m with paused := false }

/-- `mediaElement.load()`: the element is reset to a paused state at time 0. -/
def MediaElement.load (m : MediaElement) : MediaElement :=
  { m with paused := true, currentTime := 0 }

/-- `mediaElement.removeAttribute("src")`. -/
def MediaElement.removeSrc (m : MediaElement) : MediaElement :=
  { m with src := SrcAttr.absent }

/-- An item of `localStorage`, seen through `JSON.parse(localStorage.getItem(key))`:
the key is missing, or the text does not parse, or it parses to a value. -/
inductive Persisted where
  | missing
  | unparseable (text : String)
  | json (v : Json)

/-- The number `Math.random()` returns, a fraction `num / den` in `[0, 1)`. -/
structure RandomDraw where
  num : Nat
  den : Nat
  lt : num < den

/-! ## Module state -/

/-- The module-level variables of `app.js`, the media element, and the two
stores. `files` is the IndexedDB store "files", `none` when `getDb()` resolves
to `null` (IndexedDB unavailable). `urlSerial` numbers the blob URLs minted so
far. -/
structure State where
  playlist : List Obj
  currentIndex : Int
  loopPlaylist : Bool
  shuffleMode : Bool
  loopTrackActive : Bool
  backgroundSettings : Json
  audioArtMode : Json
  objectUrlRegistry : List ObjectUrl
  mediaElement : MediaElement
  files : Option (List FileRecord)
  storedPlaylist : Persisted
  storedSettings : Persisted
  urlSerial : Nat

/-- The state right after the module is loaded, before `init()`, over the given
stores. -/
def State.initial (files : Option (List FileRecord)) (storedPlaylist storedSettings : Persisted) :
    State :=
  { playlist := []
    currentIndex := -1
    loopPlaylist := false
    shuffleMode := false
    loopTrackActive := false
    backgroundSettings := Json.obj [("mode", Json.str "default")]
    audioArtMode := Json.str "default"
    objectUrlRegistry := []
    mediaElement :=
      { src := SrcAttr.absent, paused := true, currentTime := 0, loop := false,
        volume := 1, muted := false }
    files := files
    storedPlaylist := storedPlaylist
    storedSettings := storedSettings
    urlSerial := 0 }

/-- How a call ends: normally, or by throwing (for an async function: by
rejecting), with the state it leaves behind. -/
inductive Completion where
  | ok (s : State)
  | threw (error : String) (s : State)

/-- The state a call leaves behind. -/
def Completion.state : Completion → State
  | .ok s => s
  | .threw _ s => s

/-- Whether the call threw. -/
def Completion.isThrow : Completion → Bool
  | .ok _ => false
  | .threw _ _ => true

/-! ## Titles and kinds -/

/-- The two platform services `deriveTitleFromSource` calls. `parseUrl src` is
`new URL(src)` (`none` when the constructor throws) and gives the `pathname`
and the `hostname`; `decodeURIComponent` is `none` when it throws a URIError. -/
structure Host where
  parseUrl : String → Option (String × String)
  decodeURIComponent : String → Option String

/-- The pieces of `x.split(sep)` for a one-character separator, on the
characters of `x`. -/
def splitChars (sep : Char) : List Char → List (List Char)
  | [] => [[]]
  | c :: rest =>
    if c = sep then [] :: splitChars sep rest
    else
      match splitChars sep rest with
      | [] => [[c]]
      | piece :: pieces => (c :: piece) :: pieces

/-- The source's `x.split("/").filter(Boolean).pop()`. -/
def lastSegment (x : String) : Option String :=
  (((splitChars '/' x.toList).map String.mk).filter (fun t => decide (t ≠ ""))).getLast?

/-- The value of a hexadecimal digit, `none` for any other character. -/
def hexValue (c : Char) : Option Nat :=
  if 48 ≤ c.toNat ∧ c.toNat ≤ 57 then some (c.toNat - 48)
  else if 65 ≤ c.toNat ∧ c.toNat ≤ 70 then some (c.toNat - 55)
  else if 97 ≤ c.toNat ∧ c.toNat ≤ 102 then some (c.toNat - 87)
  else none

/-- Where the scan of `decodeURIComponent` stands: outside an escape, after a
`%`, after the first digit of an octet, or between two octets of a UTF-8
sequence. `pending` counts the continuation octets still to come (0 while the
leading octet is read), `acc` holds the bits read so far, `size` is the length
of the sequence. -/
inductive DecodeState where
  | outside
  | afterPercent (pending acc size : Nat)
  | afterDigit (digit pending acc size : Nat)
  | betweenOctets (pending acc size : Nat)

/-- Whether `v`, read from a sequence of `size` octets, is a code point in its
shortest UTF-8 form: not overlong, not a surrogate, at most U+10FFFF. -/
def wellFormedCodePoint (size v : Nat) : Bool :=
  decide ((if size = 2 then 128 else if size = 3 then 2048 else 65536) ≤ v ∧ v ≤ 1114111 ∧
    ¬ (55296 ≤ v ∧ v ≤ 57343))

/-- The scan after the octet `b` has been read: the new state and the character
decoded, if one is complete; `none` is a URIError. -/
def finishOctet (b pending acc size : Nat) : Option (DecodeState × Option Char) :=
  if pending = 0 then
    if b < 128 then some (DecodeState.outside, some (Char.ofNat b))
    else if b < 192 then none
    else if b < 224 then some (DecodeState.betweenOctets 1 (b - 192) 2, none)
    else if b < 240 then some (DecodeState.betweenOctets 2 (b - 224) 3, none)
    else if b < 248 then some (DecodeState.betweenOctets 3 (b - 240) 4, none)
    else none
  else if 128 ≤ b ∧ b < 192 then
    if pending = 1 then
      if wellFormedCodePoint size (acc * 64 + (b - 128)) then
        some (DecodeState.outside, some (Char.ofNat (acc * 64 + (b - 128))))
      else none
    else some (DecodeState.betweenOctets (pending - 1) (acc * 64 + (b - 128)) size, none)
  else none

/-- One character of the scan of `decodeURIComponent`; `none` is a URIError. -/
def decodeStep (st : DecodeState) (c : Char) : Option (DecodeState × Option Char) :=
  match st with
  | DecodeState.outside =>
    if c = '%' then some (DecodeState.afterPercent 0 0 0, none)
    else some (DecodeState.outside, some c)
  | DecodeState.afterPercent pending acc size =>
    match hexValue c with
    | some d => some (DecodeState.afterDigit d pending acc size, none)
    | none => none
  | DecodeState.afterDigit d pending acc size =>
    match hexValue c with
    | some e => finishOctet (16 * d + e) pending acc size
    | none => none
  | DecodeState.betweenOctets pending acc size =>
    if c = '%' then some (DecodeState.afterPercent pending acc size, none) else none

/-- The scan of `decodeURIComponent` over the remaining characters; a text that
ends inside an escape is a URIError. -/
def decodeScan : DecodeState → List Char → Option (List Char)
  | DecodeState.outside, [] => some []
  | _, [] => none
  | st, c :: rest =>
    match decodeStep st c with
    | none => none
    | some (st', out) =>
      match decodeScan st' rest with
      | none => none
      | some tail =>
        match out with
        | some ch => some (ch :: tail)
        | none => some tail

/-- The platform's `decodeURIComponent`, as ECMAScript defines it: every `%XX`
escape is replaced by the character its UTF-8 octets encode; `none` when the
call throws a URIError (an escape that is cut short, has a digit that is not
hexadecimal, or does not encode a code point). -/
def decodeURIComponent (s : String) : Option String :=
  (decodeScan DecodeState.outside s.toList).map String.mk

/-- ECMAScript's WhiteSpace and LineTerminator characters, the ones
`String.prototype.trim` strips. -/
def isWhiteSpace (c : Char) : Bool :=
  decide (c.toNat = 9 ∨ c.toNat = 10 ∨ c.toNat = 11 ∨ c.toNat = 12 ∨ c.toNat = 13 ∨
    c.toNat = 32 ∨ c.toNat = 160 ∨ c.toNat = 5760 ∨ (8192 ≤ c.toNat ∧ c.toNat ≤ 8202) ∨
    c.toNat = 8232 ∨ c.toNat = 8233 ∨ c.toNat = 8239 ∨ c.toNat = 8287 ∨ c.toNat = 12288 ∨
    c.toNat = 65279)

/-- The platform's `String.prototype.trim`. -/
def trim (v : String) : String :=
  String.mk (((v.toList.dropWhile isWhiteSpace).reverse.dropWhile isWhiteSpace).reverse)

/-- The source's `deriveTitleFromSource`; `Except.error` when the call throws. -/
def deriveTitleFromSource (h : Host) (src : String) : Except String String :=
  if src = "" then Except.ok "Untitled Track"
  else
    let fallback : Except String String :=
      match h.decodeURIComponent ((lastSegment src).getD src) with
      | some title => Except.ok title
      | none => Except.error "URIError"
    match h.parseUrl src with
    | none => fallback
    | some (pathname, hostname) =>
      let segment := (lastSegment pathname).getD ""
      let chosen :=
        if segment ≠ "" then segment else if hostname ≠ "" then hostname else "Untitled Track"
      match h.decodeURIComponent chosen with
      | some title => Except.ok title
      | none => fallback

/-- The list `audioTypes` of `detectKind`. -/
def audioTypes : List String := ["mp3", "wav", "ogg", "m4a", "flac", "aac"]

/-- The list `videoTypes` of `detectKind`. -/
def videoTypes : List String := ["mp4", "webm", "mkv", "mov"]

/-- The lowercase form of a character, for the characters whose lowercase form
is an ASCII letter: the letters A to Z and the Kelvin sign U+212A, which
`toLowerCase` maps to "k". Any other character stays as it is. -/
def lowerChar (c : Char) : Char :=
  if c.toNat = 8490 then 'k' else c.toLower

/-- The source's `toLowerCase()` as far as `detectKind` can tell. An ASCII
character other than A to Z is its own lowercase form. A character that is
neither ASCII nor the Kelvin sign has a lowercase form that holds a character
that is not ASCII, so a text with such a character is in neither `audioTypes`
nor `videoTypes`, before `toLowerCase` as after it. -/
def toLowerCase (x : List Char) : List Char :=
  x.map lowerChar

/-- The source's `src.split("?")[0].split("#")[0].split(".").pop().toLowerCase()`. -/
def extensionOf (src : String) : String :=
  String.mk (toLowerCase
    ((splitChars '.' ((splitChars '#' ((splitChars '?' src.toList).headD [])).headD [])).getLastD []))

/-- The source's `detectKind(src, file)`. -/
def detectKind (src : String) (file : Option File) : String :=
  let fileType : String := match file with
    | some f => f.type
    | none => ""
  let extension : String := if fileType ≠ "" then fileType else extensionOf src
  if decide (fileType.toList.take 5 = "audio".toList) || audioTypes.contains extension then "audio"
  else if decide (fileType.toList.take 5 = "video".toList) || videoTypes.contains extension then
    "video"
  else "media"

/-! ## Object URLs -/

/-- The platform's `URL.createObjectURL`: a URL not handed out before. -/
def createObjectURL (s : State) : ObjectUrl × State :=
  (ObjectUrl.mk s.urlSerial, { s with urlSerial := s.urlSerial + 1 })

/-- The statement `objectUrlRegistry.add(url)`. -/
def registerObjectUrl (u : ObjectUrl) (s : State) : State :=
  { s with
    objectUrlRegistry :=
      if u ∈ s.objectUrlRegistry then s.objectUrlRegistry else s.objectUrlRegistry ++ [u] }

/-- Whether the JavaScript value `url` is the text of the blob URL `u`. -/
def isUrlOf (url : Option Json) (u : ObjectUrl) : Bool :=
  match url with
  | some v => v.isStr u.href
  | none => false

/-- The source's `cleanupObjectUrl(url)`: revoke and unregister a truthy `url`. -/
def cleanupObjectUrl (url : Option Json) (s : State) : State :=
  if truthy url then
    { s with objectUrlRegistry := s.objectUrlRegistry.filter (fun u => !(isUrlOf url u)) }
  else s

/-! ## Persistence -/

/-- The arrow function of `sanitizePlaylistForStorage`,
`(item) => ({...item, src: item.hasBlob ? null : item.src})`, in the form
`JSON.stringify` writes its result. -/
def sanitizeItem (item : Obj) : Obj :=
  Obj.assignOpt item "src"
    (if truthy (item.prop "hasBlob") then some Json.null else item.prop "src")

/-- The source's `sanitizePlaylistForStorage`. -/
def sanitizePlaylistForStorage (s : State) : List Obj :=
  s.playlist.map sanitizeItem

/-- The source's `saveState`: both documents are replaced. -/
def saveState (s : State) : State :=
  { s with
    storedPlaylist := Persisted.json (Json.arr ((sanitizePlaylistForStorage s).map Json.obj))
    storedSettings :=
      Persisted.json (Json.obj
        [("loopPlaylist", Json.bool s.loopPlaylist),
         ("shuffleMode", Json.bool s.shuffleMode),
         ("volume", Json.num s.mediaElement.volume),
         ("muted", Json.bool s.mediaElement.muted),
         ("backgroundSettings", s.backgroundSettings),
         ("audioArtMode", s.audioArtMode)]) }

/-- The source's `saveFileBlob(id, blob)`: a no-op without a database, else a
`put`, which replaces the record stored under the same key. -/
def saveFileBlob (id : String) (blob : File) (s : State) : State :=
  match s.files with
  | none => s
  | some records =>
    { s with
      files := some (records.filter (fun r => decide (r.id ≠ id)) ++ [FileRecord.mk id blob]) }

/-- The source's `deleteFileBlob(id)`, with the `.catch(() => {})` of its
callers: a no-op without a database; a key that is not a string deletes
nothing (every stored key is a string, and a value that is no valid key
rejects the request, which the caller swallows). -/
def deleteFileBlob (id : Option Json) (s : State) : State :=
  match s.files, id with
  | some records, some (Json.str k) =>
    { s with files := some (records.filter (fun r => decide (r.id ≠ k))) }
  | _, _ => s

/-- The source's `getFileBlob(id)`, with the `try`/`catch` of its caller:
`none` stands for `null`, `undefined` and a rejected request alike. -/
def getFileBlob (id : Option Json) (s : State) : Option FileRecord :=
  match s.files, id with
  | some records, some (Json.str k) => records.find? (fun r => decide (r.id = k))
  | _, _ => none

/-- The tail of the loop body of `restorePlaylistFromStorage`:
`if (item.src) restored.push(item)`. -/
def pushIfSrc (o : Obj) (acc : State × List Obj) : State × List Obj :=
  if truthy (o.prop "src") then (acc.1, acc.2 ++ [o]) else acc

/-- One turn of the loop of `restorePlaylistFromStorage` on `item`; `none` when
the turn throws (`item.hasBlob` on `null`). A string, number, boolean or array
has none of the properties read, so the turn pushes nothing. -/
def restoreItem (item : Json) (acc : State × List Obj) : Option (State × List Obj) :=
  match item with
  | Json.null => none
  | Json.obj o =>
    if truthy (Obj.prop o "hasBlob") then
      match getFileBlob (Obj.prop o "id") acc.1 with
      | some _ =>
        let minted := createObjectURL acc.1
        let s2 := registerObjectUrl minted.1 minted.2
        some (s2,
          acc.2 ++ [Obj.assign (Obj.assign o "src" (Json.str minted.1.href))
            "isObjectUrl" (Json.bool true)])
      | none => some (pushIfSrc o acc)
    else some (pushIfSrc o acc)
  | _ => some acc

/-- The loop of `restorePlaylistFromStorage` over the remaining items, followed
by `playlist = restored`. A throw leaves `playlist` as it was. -/
def restoreLoop : List Json → State × List Obj → Completion
  | [], acc => Completion.ok { acc.1 with playlist := acc.2 }
  | item :: rest, acc =>
    match restoreItem item acc with
    | none => Completion.threw "TypeError" acc.1
    | some acc' => restoreLoop rest acc'

/-- The value of `stored` after the `try`/`catch` of `restorePlaylistFromStorage`:
`JSON.parse(null)` is `null`, and `?? []` replaces `null`. -/
def storedValue (p : Persisted) : Json :=
  match p with
  | Persisted.missing => Json.arr []
  | Persisted.unparseable _ => Json.arr []
  | Persisted.json Json.null => Json.arr []
  | Persisted.json v => v

/-- The source's `restorePlaylistFromStorage`. `for (const item of stored)`
walks an array, walks a string character by character, and throws on a value
that is not iterable. -/
def restorePlaylistFromStorage (s : State) : Completion :=
  match storedValue s.storedPlaylist with
  | Json.arr items => restoreLoop items (s, [])
  | Json.str t => restoreLoop (t.toList.map (fun c => Json.str (String.singleton c))) (s, [])
  | _ => Completion.threw "TypeError" s

/-! ## Playlist store -/

/-- The source's `playTrack(index)`. -/
def playTrack (index : Int) (s : State) : State :=
  if h : index < 0 ∨ index ≥ s.playlist.length then s
  else
    let item := s.playlist.get ⟨index.toNat, by omega⟩
    saveState
      { s with
        currentIndex := index
        mediaElement :=
          ({ s.mediaElement with
              src := SrcAttr.assigned (item.prop "src"),
              loop := s.loopTrackActive }).load.play }

/-- The source's `addEntry(entry)`. -/
def addEntry (entry : Obj) (s : State) : State :=
  let s1 := saveState { s with playlist := s.playlist ++ [entry] }
  if s1.currentIndex = -1 then playTrack (s1.playlist.length - 1) s1 else s1

/-- The object literal `addLocalFile` passes to `addEntry`. -/
def localEntry (id : String) (file : File) (u : ObjectUrl) : Obj :=
  [("id", Json.str id),
   ("title", Json.str file.name),
   ("src", Json.str u.href),
   ("kind", Json.str (detectKind u.href (some file))),
   ("isObjectUrl", Json.bool true),
   ("hasBlob", Json.bool true)]

/-- The object literal `addRemoteEntry` passes to `addEntry`. -/
def remoteEntry (id title src : String) : Obj :=
  [("id", Json.str id),
   ("title", Json.str title),
   ("src", Json.str src),
   ("kind", Json.str (detectKind src none)),
   ("isObjectUrl", Json.bool false),
   ("hasBlob", Json.bool false)]

/-- The source's `addLocalFile(file)`, with `id` the value of `randomId()`. -/
def addLocalFile (id : String) (file : File) (s : State) : State :=
  let s1 := saveFileBlob id file s
  let minted := createObjectURL s1
  let s2 := registerObjectUrl minted.1 minted.2
  addEntry (localEntry id file minted.1) s2

/-- The source's `addRemoteEntry(src)`, with `id` the value of `randomId()`.
A throw of `deriveTitleFromSource` leaves the state untouched. -/
def addRemoteEntry (h : Host) (id : String) (src : String) (s : State) : Completion :=
  if src = "" then Completion.ok s
  else
    match deriveTitleFromSource h src with
    | Except.error e => Completion.threw e s
    | Except.ok title => Completion.ok (addEntry (remoteEntry id title src) s)

/-- The two statements `removeTrack` and `clearPlaylist` both run on an item
that leaves the playlist: `if (item.isObjectUrl) cleanupObjectUrl(item.src)`
and `if (item.hasBlob) deleteFileBlob(item.id).catch(() => {})`. -/
def releaseItem (s : State) (item : Obj) : State :=
  let s1 := if truthy (item.prop "isObjectUrl") then cleanupObjectUrl (item.prop "src") s else s
  if truthy (item.prop "hasBlob") then deleteFileBlob (item.prop "id") s1 else s1

/-- The selection update of `removeTrack(index)`: the `if (index === currentIndex)`
statement with its `else if`. -/
def reselectAfterRemoval (index : Int) (s : State) : State :=
  if index = s.currentIndex then
    { s with mediaElement := s.mediaElement.pause.removeSrc.load, currentIndex := -1 }
  else if index < s.currentIndex then { s with currentIndex := s.currentIndex - 1 }
  else s

/-- The source's `removeTrack(index)`. -/
def removeTrack (index : Int) (s : State) : State :=
  if h : index < 0 ∨ index ≥ s.playlist.length then s
  else
    let removed := s.playlist.get ⟨index.toNat, by omega⟩
    let s1 := { s with playlist := s.playlist.eraseIdx index.toNat }
    saveState (reselectAfterRemoval index (releaseItem s1 removed))

/-- The source's `clearPlaylist`. -/
def clearPlaylist (s : State) : State :=
  let s1 := s.playlist.foldl releaseItem s
  saveState
    { s1 with
      playlist := []
      currentIndex := -1
      mediaElement := s1.mediaElement.pause.removeSrc.load }

/-- The array `candidates` of `nextTrack`: every index but `currentIndex`. -/
def candidates (s : State) : List Nat :=
  (List.range s.playlist.length).filter (fun idx => decide ((idx : Int) ≠ s.currentIndex))

/-- The expression `xs[Math.floor(Math.random() * xs.length)]` on a non-empty
array, for the draw `r`. -/
def pick (r : RandomDraw) (xs : List Nat) (h : xs ≠ []) : Nat :=
  xs.get ⟨r.num * xs.length / r.den,
    Nat.div_lt_of_lt_mul
      (Nat.mul_lt_mul_of_pos_right r.lt (List.length_pos.mpr h))⟩

/-- The sequential part of `nextTrack(auto)`, from `const nextIndex` on. -/
def nextSequential (auto : Bool) (s : State) : State :=
  let nextIndex := s.currentIndex + 1
  if nextIndex < s.playlist.length then playTrack nextIndex s
  else if s.loopPlaylist then playTrack 0 s
  else if !auto then
    { s with mediaElement := { s.mediaElement.pause with currentTime := 0 } }
  else s

/-- The source's `nextTrack(auto)`, with `r` the value of `Math.random()`. -/
def nextTrack (auto : Bool) (r : RandomDraw) (s : State) : State :=
  if s.playlist.length = 0 then s
  else if s.shuffleMode && auto then
    if h : candidates s ≠ [] then playTrack (pick r (candidates s) h) s
    else nextSequential auto s
  else nextSequential auto s

/-- The source's `previousTrack`. -/
def previousTrack (s : State) : State :=
  if s.playlist.length = 0 then s
  else
    let prevIndex := s.currentIndex - 1
    if prevIndex ≥ 0 then playTrack prevIndex s
    else if s.loopPlaylist then playTrack (s.playlist.length - 1) s
    else s

/-- The click handler of `loopPlaylistBtn` in `attachEvents`. -/
def toggleLoopPlaylist (s : State) : State :=
  saveState { s with loopPlaylist := !s.loopPlaylist }

/-- The click handler of `shuffleBtn` in `attachEvents`. -/
def toggleShuffle (s : State) : State :=
  saveState { s with shuffleMode := !s.shuffleMode }

/-- The `submit` handler of `addForm` in `attachEvents`, for the text of the URL
field and the files selected, each file paired with the id `randomId()` gives
it; `remoteId` is the id for the remote entry. `urlInput.focus()` and
`resetForm()` only touch the DOM. -/
def submitAddForm (h : Host) (urlInput : String) (files : List (String × File))
    (remoteId : String) (s : State) : Completion :=
  let urlValue := trim urlInput
  if urlValue = "" ∧ files.isEmpty then Completion.ok s
  else
    let s1 := files.foldl (fun st f => addLocalFile f.1 f.2 st) s
    if urlValue = "" then Completion.ok s1 else addRemoteEntry h remoteId urlValue s1

/-! ## Settings -/

/-- Property read `v.k` on a value that is not `null`: a number, string,
boolean or array has none of the properties the code reads. -/
def Json.prop (v : Json) (k : String) : Option Json :=
  match v with
  | Json.obj fields => Obj.prop fields k
  | _ => none

/-- The expression `v ?? d`. -/
def orDefault (v : Option Json) (d : Json) : Json :=
  match v with
  | none => d
  | some Json.null => d
  | some x => x

/-- The test `v === s` for a string `s`, on a value that may be `undefined`. -/
def strictEqStr (v : Option Json) (s : String) : Bool :=
  match v with
  | some x => x.isStr s
  | none => false

/-- The value of `stored` in `restoreSettings`, `none` when `JSON.parse` throws:
`JSON.parse(null)` is `null`, and `?? {}` replaces `null`. -/
def storedSettingsValue (p : Persisted) : Option Json :=
  match p with
  | Persisted.missing => some (Json.obj [])
  | Persisted.unparseable _ => none
  | Persisted.json Json.null => some (Json.obj [])
  | Persisted.json v => some v

/-- The expression `typeof stored.volume === "number" && stored.volume >= 0 &&
stored.volume <= 1 ? stored.volume : 1` of `restoreSettings`. -/
def restoredVolume (volume : Option Json) : ℚ :=
  match volume with
  | some (Json.num q) => if 0 ≤ q ∧ q ≤ 1 then q else 1
  | _ => 1

/-- The `try`/`catch` statement of `restoreSettings`. -/
def applyStoredSettings (s : State) : State :=
  match storedSettingsValue s.storedSettings with
  | none => { s with mediaElement := { s.mediaElement with volume := 1 } }
  | some stored =>
    { s with
      loopPlaylist := truthy (stored.prop "loopPlaylist")
      shuffleMode := truthy (stored.prop "shuffleMode")
      backgroundSettings :=
        orDefault (stored.prop "backgroundSettings") (Json.obj [("mode", Json.str "default")])
      audioArtMode := orDefault (stored.prop "audioArtMode") (Json.str "default")
      mediaElement :=
        { s.mediaElement with
          volume := restoredVolume (stored.prop "volume")
          muted := truthy (stored.prop "muted") } }

/-- A record of the IndexedDB store "assets" (key path `id`). -/
structure AssetRecord where
  id : String
  blob : File
  deriving DecidableEq

/-- The background image and the audio art: the records of the "assets" store
(read and written only when the database is available, that is when
`State.files` is not `none`) and the module variables `backgroundImageUrl` and
`audioArtUrl`. -/
structure Assets where
  records : List AssetRecord
  backgroundImageUrl : Option ObjectUrl
  audioArtUrl : Option ObjectUrl

/-- The constant `BACKGROUND_IMAGE_KEY`. -/
def BACKGROUND_IMAGE_KEY : String := "background-image"

/-- The constant `AUDIO_ART_KEY`. -/
def AUDIO_ART_KEY : String := "audio-art"

/-- The source's `getBackgroundBlob` and `getAudioArtBlob`, for the key given. -/
def getAssetBlob (key : String) (s : State) (a : Assets) : Option AssetRecord :=
  if s.files.isSome then a.records.find? (fun r => decide (r.id = key)) else none

/-- The source's `deleteBackgroundBlob` and `deleteAudioArtBlob`, for the key given. -/
def deleteAssetBlob (key : String) (s : State) (a : Assets) : Assets :=
  if s.files.isSome then { a with records := a.records.filter (fun r => decide (r.id ≠ key)) }
  else a

/-- The statement `if (backgroundSettings.mode === "image") ...` of
`restoreSettings`. -/
def restoreBackgroundImage (s : State) (a : Assets) : State × Assets :=
  if strictEqStr (s.backgroundSettings.prop "mode") "image" then
    match getAssetBlob BACKGROUND_IMAGE_KEY s a with
    | some _ =>
      let minted := createObjectURL s
      (minted.2, { a with backgroundImageUrl := some minted.1 })
    | none =>
      ({ s with
          backgroundSettings :=
            match s.backgroundSettings with
            | Json.obj fields => Json.obj (Obj.assign fields "mode" (Json.str "default"))
            | v => v },
        deleteAssetBlob BACKGROUND_IMAGE_KEY s a)
  else (s, a)

/-- The statement `if (audioArtMode === "custom") ...` of `restoreSettings`. -/
def restoreAudioArt (s : State) (a : Assets) : State × Assets :=
  if s.audioArtMode.isStr "custom" then
    match getAssetBlob AUDIO_ART_KEY s a with
    | some _ =>
      let minted := createObjectURL s
      (minted.2, { a with audioArtUrl := some minted.1 })
    | none => ({ s with audioArtMode := Json.str "default" }, deleteAssetBlob AUDIO_ART_KEY s a)
  else (s, a)

/-- The source's `restoreSettings`; the button labels, the select element and
`applyBackground()` only touch the DOM. -/
def restoreSettings (s : State) (a : Assets) : State × Assets :=
  let s1 := applyStoredSettings s
  let r1 := restoreBackgroundImage s1 a
  restoreAudioArt r1.1 r1.2

/-! ## Reachable states -/

/-- The data-model condition on the selection: `currentIndex` is -1 or a valid
index of the playlist. -/
def IndexOk (s : State) : Prop :=
  s.currentIndex = -1 ∨ (0 ≤ s.currentIndex ∧ s.currentIndex < s.playlist.length)

/-- The states reached from a state with an empty playlist and nothing selected
(whatever its flags and stores) by calls of the playlist store: adding a local
file or a remote entry, `removeTrack`, `clearPlaylist`, `playTrack`,
`nextTrack`, `previousTrack`, with any integer argument, any draw, and the loop
and shuffle buttons clicked at any time. -/
inductive Reachable : State → Prop where
  | start (s : State) (hp : s.playlist = []) (hi : s.currentIndex = -1) : Reachable s
  | addLocal (id : String) (file : File) (s : State) (hs : Reachable s) :
      Reachable (addLocalFile id file s)
  | addRemote (h : Host) (id src : String) (s : State) (hs : Reachable s) :
      Reachable (addRemoteEntry h id src s).state
  | remove (index : Int) (s : State) (hs : Reachable s) : Reachable (removeTrack index s)
  | clear (s : State) (hs : Reachable s) : Reachable (clearPlaylist s)
  | select (index : Int) (s : State) (hs : Reachable s) : Reachable (playTrack index s)
  | next (auto : Bool) (r : RandomDraw) (s : State) (hs : Reachable s) :
      Reachable (nextTrack auto r s)
  | previous (s : State) (hs : Reachable s) : Reachable (previousTrack s)
  | loopClick (s : State) (hs : Reachable s) : Reachable (toggleLoopPlaylist s)
  | shuffleClick (s : State) (hs : Reachable s) : Reachable (toggleShuffle s)

/-- Whether the object `o` claims a blob (`hasBlob`) whose record is present in
the "files" store of `s` under the id of `o`. -/
def hasLiveBlob (s : State) (o : Obj) : Bool :=
  truthy (o.prop "hasBlob") && (getFileBlob (o.prop "id") s).isSome

/-- Which items of a persisted list come back, over the "files" store of `s`:
an object that claims a blob whose record is present, or an object with a
truthy `src`; any other item is dropped. -/
def keptItem (s : State) (item : Json) : Option Obj :=
  match item with
  | Json.obj o => if hasLiveBlob s o || truthy (Obj.prop o "src") then some o else none
  | _ => none

/-- How the restored entry `r` relates to the stored object `o`, for a restore
that starts in `s` and ends in `t'`: an object with a live blob comes back with
a blob URL minted during the restore and registered as its `src`, and with
`isObjectUrl` true; any other object is kept as stored. -/
def RestoredItem (s t' : State) (o r : Obj) : Prop :=
  if hasLiveBlob s o then
    ∃ u : ObjectUrl, s.urlSerial ≤ u.serial ∧ u.serial < t'.urlSerial ∧
      u ∈ t'.objectUrlRegistry ∧
      r = Obj.assign (Obj.assign o "src" (Json.str u.href)) "isObjectUrl" (Json.bool true)
  else r = o

/-- The words of the spec on which entries come back after a save and a
restart over the "files" store of `t`: a blob-backed entry with a record
present under its id, or an entry that is not blob-backed and has a non-empty
`src`. -/
def survivesReload (t : State) (e : Obj) : Bool :=
  if truthy (e.prop "hasBlob") then (getFileBlob (e.prop "id") t).isSome
  else truthy (e.prop "src")

/-- How the restored entry `r` relates to the saved entry `e`, for a restore
that starts in `t` and ends in `t'`: a blob-backed entry comes back with a blob
URL minted during the restore and registered, and with `isObjectUrl` true; any
other entry comes back as it was. -/
def RestoredFrom (t t' : State) (e r : Obj) : Prop :=
  if truthy (e.prop "hasBlob") then
    ∃ u : ObjectUrl, t.urlSerial ≤ u.serial ∧ u.serial < t'.urlSerial ∧
      u ∈ t'.objectUrlRegistry ∧
      r = Obj.assign (Obj.assign e "src" (Json.str u.href)) "isObjectUrl" (Json.bool true)
  else r = e

/-- The properties of an entry a reload has to preserve: id, title and kind. -/
def entryCore (e : Obj) : Option Json × Option Json × Option Json :=
  (e.prop "id", e.prop "title", e.prop "kind")

/-- The state a saved session is reopened in: a fresh page over the stores the
session `s` leaves behind. The platform goes on numbering blob URLs, since it
never hands out a URL twice. -/
def reload (s : State) : State :=
  { State.initial s.files s.storedPlaylist s.storedSettings with urlSerial := s.urlSerial }

/-- The records in the "files" store; none when IndexedDB is unavailable. -/
def State.records (s : State) : List FileRecord :=
  s.files.getD []

/-- Ownership: every registered blob URL is the `src` of a handle-backed entry
of the playlist, and every record of the "files" store is stored under the id
of a blob-backed entry of the playlist. -/
def Owned (s : State) : Prop :=
  (∀ u ∈ s.objectUrlRegistry, ∃ e ∈ s.playlist,
    truthy (e.prop "isObjectUrl") = true ∧ e.prop "src" = some (Json.str u.href)) ∧
  (∀ r ∈ s.records, ∃ e ∈ s.playlist,
    truthy (e.prop "hasBlob") = true ∧ e.prop "id" = some (Json.str r.id))

/-- The states reached from empty stores (an empty playlist with nothing
selected, an empty registry, no record in the "files" store) by adding local
files and remote entries, removing, selecting, advancing, retreating and
clearing. Every write and delete of the binary store succeeds. -/
inductive ReachableFromEmpty : State → Prop where
  | start (s : State) (hp : s.playlist = []) (hi : s.currentIndex = -1)
      (hr : s.objectUrlRegistry = []) (hf : s.records = []) : ReachableFromEmpty s
  | addLocal (id : String) (file : File) (s : State) (hs : ReachableFromEmpty s) :
      ReachableFromEmpty (addLocalFile id file s)
  | addRemote (h : Host) (id src : String) (s : State) (hs : ReachableFromEmpty s) :
      ReachableFromEmpty (addRemoteEntry h id src s).state
  | remove (index : Int) (s : State) (hs : ReachableFromEmpty s) :
      ReachableFromEmpty (removeTrack index s)
  | select (index : Int) (s : State) (hs : ReachableFromEmpty s) :
      ReachableFromEmpty (playTrack index s)
  | next (auto : Bool) (r : RandomDraw) (s : State) (hs : ReachableFromEmpty s) :
      ReachableFromEmpty (nextTrack auto r s)
  | previous (s : State) (hs : ReachableFromEmpty s) : ReachableFromEmpty (previousTrack s)
  | clear (s : State) (hs : ReachableFromEmpty s) : ReachableFromEmpty (clearPlaylist s)

/-! ## Example states -/

/-- An audio file of the examples. -/
def songFile : File := { name := "song.mp3", type := "audio/mpeg" }

/-- A video file of the examples. -/
def clipFile : File := { name := "clip.mp4", type := "video/mp4" }

/-- A fresh page over an empty, available "files" store and an empty `localStorage`. -/
def freshState : State := State.initial (some []) Persisted.missing Persisted.missing

/-- Three local files added to the fresh page, the last one selected. -/
def threeTracks : State :=
  playTrack 2
    (addLocalFile "id-3" songFile
      (addLocalFile "id-2" clipFile (addLocalFile "id-1" songFile freshState)))

/-- Two local files added to the fresh page, shuffle switched on. -/
def twoTracksShuffled : State :=
  toggleShuffle (addLocalFile "id-2" clipFile (addLocalFile "id-1" songFile freshState))

/-- The draw 1/2. -/
def halfDraw : RandomDraw := { num := 1, den := 2, lt := by decide }

/-- Two local files added to the fresh page. -/
def twoTracks : State :=
  addLocalFile "id-2" clipFile (addLocalFile "id-1" songFile freshState)

/-- A persisted playlist document with one entry that claims a blob and also
carries a remote `src`. -/
def staleDocument : Json :=
  Json.arr
    [Json.obj
      [("id", Json.str "gone"),
       ("title", Json.str "gone.mp3"),
       ("src", Json.str "https://ex.com/gone.mp3"),
       ("kind", Json.str "audio"),
       ("isObjectUrl", Json.bool false),
       ("hasBlob", Json.bool true)]]

/-- A page starting over an empty "files" store and the given playlist document. -/
def startupOn (document : Json) : State :=
  State.initial (some []) (Persisted.json document) Persisted.missing

/-- A host that agrees with the browser on the strings of the examples: it
parses the two URLs below as `new URL` does, it rejects every other string
(among them "%" and " ", which `new URL` rejects), and it decodes as
`decodeURIComponent` does. -/
def exampleHost : Host :=
  { parseUrl := fun src =>
      if src = "https://ex.com/music/Song%20One.mp3" then
        some ("/music/Song%20One.mp3", "ex.com")
      else if src = "https://ex.com/100%.mp3" then some ("/100%.mp3", "ex.com")
      else none
    decodeURIComponent := decodeURIComponent }

/-- A settings document that holds only a volume. -/
def volumeDocument (volume : Json) : Persisted :=
  Persisted.json (Json.obj [("volume", volume)])

/-- A page starting over the given settings document. -/
def startupOnSettings (document : Persisted) : State :=
  State.initial (some []) Persisted.missing document

/-- No background image and no audio art. -/
def noAssets : Assets := { records := [], backgroundImageUrl := none, audioArtUrl := none }

/-- A persisted playlist document with three entries that claim a blob: the
record of the first is present, the second has no record and carries a remote
`src`, the third has no record and a null `src`. -/
def mixedDocument : Json :=
  Json.arr
    [Json.obj
      [("id", Json.str "kept"), ("title", Json.str "kept.mp3"), ("src", Json.null),
       ("kind", Json.str "audio"), ("isObjectUrl", Json.bool true), ("hasBlob", Json.bool true)],
     Json.obj
      [("id", Json.str "gone"), ("title", Json.str "gone.mp3"),
       ("src", Json.str "https://ex.com/gone.mp3"),
       ("kind", Json.str "audio"), ("isObjectUrl", Json.bool false), ("hasBlob", Json.bool true)],
     Json.obj
      [("id", Json.str "lost"), ("title", Json.str "lost.mp3"), ("src", Json.null),
       ("kind", Json.str "audio"), ("isObjectUrl", Json.bool true), ("hasBlob", Json.bool true)]]

/-- A page starting over `mixedDocument` and a "files" store that holds the
record of its first entry only. -/
def startupMixed : State :=
  State.initial (some [FileRecord.mk "kept" songFile]) (Persisted.json mixedDocument)
    Persisted.missing

/-! ## Frame lemmas: what each operation leaves alone -/

@[simp]
theorem saveState_playlist (s : State) : (saveState s).playlist = s.playlist := rfl

@[simp]
theorem saveState_currentIndex (s : State) :
    (saveState s).currentIndex = s.currentIndex := rfl

@[simp]
theorem saveState_objectUrlRegistry (s : State) :
    (saveState s).objectUrlRegistry = s.objectUrlRegistry := rfl

@[simp]
theorem saveState_files (s : State) : (saveState s).files = s.files := rfl

@[simp]
theorem saveState_mediaElement (s : State) :
    (saveState s).mediaElement = s.mediaElement := rfl

@[simp]
theorem saveState_loopPlaylist (s : State) :
    (saveState s).loopPlaylist = s.loopPlaylist := rfl

@[simp]
theorem saveState_shuffleMode (s : State) :
    (saveState s).shuffleMode = s.shuffleMode := rfl

@[simp]
theorem saveState_urlSerial (s : State) : (saveState s).urlSerial = s.urlSerial := rfl

@[simp]
theorem cleanupObjectUrl_playlist (url : Option Json) (s : State) :
    (cleanupObjectUrl url s).playlist = s.playlist := by
  unfold cleanupObjectUrl; split <;> rfl

@[simp]
theorem cleanupObjectUrl_currentIndex (url : Option Json) (s : State) :
    (cleanupObjectUrl url s).currentIndex = s.currentIndex := by
  unfold cleanupObjectUrl; split <;> rfl

@[simp]
theorem cleanupObjectUrl_files (url : Option Json) (s : State) :
    (cleanupObjectUrl url s).files = s.files := by
  unfold cleanupObjectUrl; split <;> rfl

@[simp]
theorem cleanupObjectUrl_mediaElement (url : Option Json) (s : State) :
    (cleanupObjectUrl url s).mediaElement = s.mediaElement := by
  unfold cleanupObjectUrl; split <;> rfl

@[simp]
theorem deleteFileBlob_playlist (id : Option Json) (s : State) :
    (deleteFileBlob id s).playlist = s.playlist := by
  unfold deleteFileBlob; split <;> rfl

@[simp]
theorem deleteFileBlob_currentIndex (id : Option Json) (s : State) :
    (deleteFileBlob id s).currentIndex = s.currentIndex := by
  unfold deleteFileBlob; split <;> rfl

@[simp]
theorem deleteFileBlob_objectUrlRegistry (id : Option Json) (s : State) :
    (deleteFileBlob id s).objectUrlRegistry = s.objectUrlRegistry := by
  unfold deleteFileBlob; split <;> rfl

@[simp]
theorem deleteFileBlob_mediaElement (id : Option Json) (s : State) :
    (deleteFileBlob id s).mediaElement = s.mediaElement := by
  unfold deleteFileBlob; split <;> rfl

/-- The text of a blob URL is never empty. -/
theorem ObjectUrl.href_ne_empty (u : ObjectUrl) : u.href ≠ "" := by
  intro h
  have hlen := congrArg String.length h
  simp [ObjectUrl.href, String.length_append] at hlen
  have : ("blob:" : String).length = 5 := by decide
  omega

/-- A falsy value is the text of no blob URL. -/
theorem isUrlOf_false_of_falsy (url : Option Json) (u : ObjectUrl) (h : truthy url = false) :
    isUrlOf url u = false := by
  cases url with
  | none => rfl
  | some v =>
    cases v <;> simp [isUrlOf, Json.isStr, truthy, Json.truthy] at h ⊢
    rename_i t
    intro ht
    exact u.href_ne_empty (ht ▸ h)

/-- After `cleanupObjectUrl(url)` no registered URL has the text `url`. -/
theorem cleanupObjectUrl_not_registered (url : Option Json) (s : State) (u : ObjectUrl)
    (hu : u ∈ (cleanupObjectUrl url s).objectUrlRegistry) : isUrlOf url u = false := by
  unfold cleanupObjectUrl at hu
  by_cases ht : truthy url = true
  · simp [ht, List.mem_filter] at hu
    exact hu.2
  · exact isUrlOf_false_of_falsy url u (by simpa using ht)

/-- `cleanupObjectUrl` only removes URLs from the registry. -/
theorem cleanupObjectUrl_registry_subset (url : Option Json) (s : State) (u : ObjectUrl)
    (hu : u ∈ (cleanupObjectUrl url s).objectUrlRegistry) : u ∈ s.objectUrlRegistry := by
  unfold cleanupObjectUrl at hu
  split at hu
  · exact (List.mem_filter.mp hu).1
  · exact hu

/-! ## Removing a track -/

@[simp]
theorem releaseItem_playlist (s : State) (item : Obj) :
    (releaseItem s item).playlist = s.playlist := by
  unfold releaseItem; split <;> split <;> simp

@[simp]
theorem releaseItem_currentIndex (s : State) (item : Obj) :
    (releaseItem s item).currentIndex = s.currentIndex := by
  unfold releaseItem; split <;> split <;> simp

@[simp]
theorem releaseItem_mediaElement (s : State) (item : Obj) :
    (releaseItem s item).mediaElement = s.mediaElement := by
  unfold releaseItem; split <;> split <;> simp

@[simp]
theorem reselectAfterRemoval_playlist (index : Int) (s : State) :
    (reselectAfterRemoval index s).playlist = s.playlist := by
  unfold reselectAfterRemoval; split
  · rfl
  · split <;> rfl

@[simp]
theorem reselectAfterRemoval_objectUrlRegistry (index : Int) (s : State) :
    (reselectAfterRemoval index s).objectUrlRegistry = s.objectUrlRegistry := by
  unfold reselectAfterRemoval; split
  · rfl
  · split <;> rfl

@[simp]
theorem reselectAfterRemoval_files (index : Int) (s : State) :
    (reselectAfterRemoval index s).files = s.files := by
  unfold reselectAfterRemoval; split
  · rfl
  · split <;> rfl

theorem reselectAfterRemoval_currentIndex (index : Int) (s : State) :
    (reselectAfterRemoval index s).currentIndex =
      if index = s.currentIndex then -1
      else if index < s.currentIndex then s.currentIndex - 1 else s.currentIndex := by
  unfold reselectAfterRemoval; split
  · rfl
  · split <;> rfl

/-- The playlist after `removeTrack(index)` on a valid index. -/
theorem removeTrack_playlist (s : State) (index : Int)
    (h : 0 ≤ index ∧ index < s.playlist.length) :
    (removeTrack index s).playlist = s.playlist.eraseIdx index.toNat := by
  have hg : ¬ (index < 0 ∨ index ≥ s.playlist.length) := by omega
  unfold removeTrack
  simp [dif_neg hg]

/-- The selection after `removeTrack(index)` on a valid index. -/
theorem removeTrack_currentIndex (s : State) (index : Int)
    (h : 0 ≤ index ∧ index < s.playlist.length) :
    (removeTrack index s).currentIndex =
      if index = s.currentIndex then -1
      else if index < s.currentIndex then s.currentIndex - 1 else s.currentIndex := by
  have hg : ¬ (index < 0 ∨ index ≥ s.playlist.length) := by omega
  unfold removeTrack
  simp [dif_neg hg, reselectAfterRemoval_currentIndex]

/-- C1. For a valid `currentIndex` c and an index i with 0 <= i < c,
`removeTrack(i)` leaves `currentIndex` equal to c - 1, and the entry at the new
`currentIndex` is the entry that was selected at c before the removal (the
same object, hence the same id). -/
theorem removeTrack_before_selection (s : State) (i : Int)
    (hc : 0 ≤ s.currentIndex ∧ s.currentIndex < s.playlist.length)
    (hi : 0 ≤ i ∧ i < s.currentIndex) :
    (removeTrack i s).currentIndex = s.currentIndex - 1 ∧
    ∃ e : Obj, s.playlist[s.currentIndex.toNat]? = some e ∧
      (removeTrack i s).playlist[((removeTrack i s).currentIndex).toNat]? = some e := by
  have hv : 0 ≤ i ∧ i < s.playlist.length := by omega
  have hcur : (removeTrack i s).currentIndex = s.currentIndex - 1 := by
    rw [removeTrack_currentIndex s i hv]
    have h1 : ¬ i = s.currentIndex := by omega
    simp [h1, hi.2]
  refine ⟨hcur, ?_⟩
  have hlt : s.currentIndex.toNat < s.playlist.length := by omega
  refine ⟨s.playlist[s.currentIndex.toNat], List.getElem?_eq_getElem hlt, ?_⟩
  rw [hcur, removeTrack_playlist s i hv, List.getElem?_eraseIdx_of_ge _ _ _ (by omega)]
  have : (s.currentIndex - 1).toNat + 1 = s.currentIndex.toNat := by omega
  rw [this]
  exact List.getElem?_eq_getElem hlt

/-- C1, at an example: three local files, the third selected, the first removed. -/
theorem removeTrack_before_selection_witness :
    (0 ≤ threeTracks.currentIndex ∧ threeTracks.currentIndex < threeTracks.playlist.length) ∧
    (removeTrack 0 threeTracks).currentIndex = threeTracks.currentIndex - 1 ∧
    ∃ e : Obj, threeTracks.playlist[threeTracks.currentIndex.toNat]? = some e ∧
      (removeTrack 0 threeTracks).playlist[((removeTrack 0 threeTracks).currentIndex).toNat]? =
        some e :=
  ⟨by decide, removeTrack_before_selection threeTracks 0 (by decide) (by decide)⟩

/-- `removeTrack(index)` on a valid index, with the removed entry named. -/
theorem removeTrack_eq (s : State) (index : Int)
    (h : 0 ≤ index ∧ index < s.playlist.length) (e : Obj)
    (he : s.playlist[index.toNat]? = some e) :
    removeTrack index s =
      saveState (reselectAfterRemoval index
        (releaseItem { s with playlist := s.playlist.eraseIdx index.toNat } e)) := by
  have hg : ¬ (index < 0 ∨ index ≥ s.playlist.length) := by omega
  have hlt : index.toNat < s.playlist.length := by omega
  have hget : s.playlist.get ⟨index.toNat, hlt⟩ = e := by
    have := List.getElem?_eq_getElem hlt
    rw [this] at he
    simpa using he
  unfold removeTrack
  simp only [dif_neg hg]
  rw [hget]

/-- The registry after `removeTrack(index)` on a valid index. -/
theorem removeTrack_objectUrlRegistry (s : State) (index : Int)
    (h : 0 ≤ index ∧ index < s.playlist.length) (e : Obj)
    (he : s.playlist[index.toNat]? = some e) :
    (removeTrack index s).objectUrlRegistry =
      (releaseItem { s with playlist := s.playlist.eraseIdx index.toNat } e).objectUrlRegistry := by
  rw [removeTrack_eq s index h e he]
  simp

/-- The "files" store after `removeTrack(index)` on a valid index. -/
theorem removeTrack_files (s : State) (index : Int)
    (h : 0 ≤ index ∧ index < s.playlist.length) (e : Obj)
    (he : s.playlist[index.toNat]? = some e) :
    (removeTrack index s).files =
      (releaseItem { s with playlist := s.playlist.eraseIdx index.toNat } e).files := by
  rw [removeTrack_eq s index h e he]
  simp

/-- Releasing a handle-backed item leaves no registered URL with the text of
its `src`. -/
theorem releaseItem_not_registered (s : State) (item : Obj)
    (hb : truthy (item.prop "isObjectUrl") = true) (u : ObjectUrl)
    (hu : u ∈ (releaseItem s item).objectUrlRegistry) : isUrlOf (item.prop "src") u = false := by
  unfold releaseItem at hu
  simp only [hb, if_true] at hu
  split at hu
  · rw [deleteFileBlob_objectUrlRegistry] at hu
    exact cleanupObjectUrl_not_registered _ _ _ hu
  · exact cleanupObjectUrl_not_registered _ _ _ hu

/-- The media element after `removeTrack` on the selected index: paused, without
a `src`, reloaded. -/
theorem removeTrack_mediaElement_of_selected (s : State)
    (hc : 0 ≤ s.currentIndex ∧ s.currentIndex < s.playlist.length) :
    (removeTrack s.currentIndex s).mediaElement = s.mediaElement.pause.removeSrc.load := by
  have hg : ¬ (s.currentIndex < 0 ∨ s.currentIndex ≥ s.playlist.length) := by omega
  unfold removeTrack
  simp [dif_neg hg, reselectAfterRemoval]

/-- C2. For a valid `currentIndex` c, `removeTrack(c)` sets `currentIndex` to
-1, pauses the media element and clears its `src`, removes exactly the entry at
c from the playlist, and, when that entry was handle-backed (`isObjectUrl`),
leaves no URL with the text of its `src` in the live-handle registry. -/
theorem removeTrack_selected (s : State)
    (hc : 0 ≤ s.currentIndex ∧ s.currentIndex < s.playlist.length) :
    (removeTrack s.currentIndex s).currentIndex = -1 ∧
    (removeTrack s.currentIndex s).mediaElement.paused = true ∧
    (removeTrack s.currentIndex s).mediaElement.src = SrcAttr.absent ∧
    (removeTrack s.currentIndex s).playlist = s.playlist.eraseIdx s.currentIndex.toNat ∧
    (removeTrack s.currentIndex s).playlist.length + 1 = s.playlist.length ∧
    ∀ e : Obj, s.playlist[s.currentIndex.toNat]? = some e →
      truthy (e.prop "isObjectUrl") = true →
      ∀ u ∈ (removeTrack s.currentIndex s).objectUrlRegistry,
        isUrlOf (e.prop "src") u = false := by
  have hg : ¬ (s.currentIndex < 0 ∨ s.currentIndex ≥ s.playlist.length) := by omega
  have hlt : s.currentIndex.toNat < s.playlist.length := by omega
  refine ⟨?_, ?_, ?_, removeTrack_playlist s _ hc, ?_, ?_⟩
  · rw [removeTrack_currentIndex s _ hc]; simp
  · rw [removeTrack_mediaElement_of_selected s hc]; rfl
  · rw [removeTrack_mediaElement_of_selected s hc]; rfl
  · rw [removeTrack_playlist s _ hc, List.length_eraseIdx_of_lt hlt]
    omega
  · intro e he hb u hu
    rw [removeTrack_objectUrlRegistry s _ hc e he] at hu
    exact releaseItem_not_registered _ e hb u hu

/-- C2, at an example: three local files, the third selected and then removed. -/
theorem removeTrack_selected_witness :
    (0 ≤ threeTracks.currentIndex ∧ threeTracks.currentIndex < threeTracks.playlist.length) ∧
    (removeTrack threeTracks.currentIndex threeTracks).currentIndex = -1 ∧
    (removeTrack threeTracks.currentIndex threeTracks).mediaElement.paused = true ∧
    (removeTrack threeTracks.currentIndex threeTracks).playlist.length + 1 =
      threeTracks.playlist.length :=
  have h := removeTrack_selected threeTracks (by decide)
  ⟨by decide, h.1, h.2.1, h.2.2.2.2.1⟩

/-! ## Selecting a track -/

@[simp]
theorem playTrack_playlist (index : Int) (s : State) :
    (playTrack index s).playlist = s.playlist := by
  unfold playTrack; split <;> rfl

@[simp]
theorem playTrack_objectUrlRegistry (index : Int) (s : State) :
    (playTrack index s).objectUrlRegistry = s.objectUrlRegistry := by
  unfold playTrack; split <;> rfl

@[simp]
theorem playTrack_files (index : Int) (s : State) : (playTrack index s).files = s.files := by
  unfold playTrack; split <;> rfl

theorem playTrack_currentIndex (index : Int) (s : State) :
    (playTrack index s).currentIndex =
      if index < 0 ∨ index ≥ s.playlist.length then s.currentIndex else index := by
  unfold playTrack; split <;> rfl

/-- `playTrack` keeps the selection valid. -/
theorem playTrack_indexOk (index : Int) (s : State) (h : IndexOk s) :
    IndexOk (playTrack index s) := by
  unfold IndexOk at *
  rw [playTrack_currentIndex, playTrack_playlist]
  split
  · exact h
  · right; omega

@[simp]
theorem addEntry_playlist (entry : Obj) (s : State) :
    (addEntry entry s).playlist = s.playlist ++ [entry] := by
  unfold addEntry
  simp only []
  split <;> simp

/-- `addEntry` keeps the selection valid. -/
theorem addEntry_indexOk (entry : Obj) (s : State) (h : IndexOk s) :
    IndexOk (addEntry entry s) := by
  unfold addEntry
  simp only []
  split
  · apply playTrack_indexOk
    left; assumption
  · rename_i hne
    unfold IndexOk at *
    simp only [saveState_currentIndex, saveState_playlist, List.length_append,
      List.length_singleton] at hne ⊢
    rcases h with h | h
    · exact absurd h hne
    · right; constructor
      · exact h.1
      · push_cast; omega

/-- `removeTrack` keeps the selection valid. -/
theorem removeTrack_indexOk (index : Int) (s : State) (h : IndexOk s) :
    IndexOk (removeTrack index s) := by
  by_cases hg : index < 0 ∨ index ≥ s.playlist.length
  · unfold removeTrack; rw [dif_pos hg]; exact h
  · have hv : 0 ≤ index ∧ index < s.playlist.length := by omega
    have hlt : index.toNat < s.playlist.length := by omega
    unfold IndexOk at *
    rw [removeTrack_currentIndex s index hv, removeTrack_playlist s index hv,
      List.length_eraseIdx_of_lt hlt]
    split
    · left; rfl
    · split
      · right; omega
      · rcases h with h | h
        · left; exact h
        · right; omega

/-- `clearPlaylist` leaves nothing selected. -/
theorem clearPlaylist_currentIndex (s : State) : (clearPlaylist s).currentIndex = -1 := rfl

/-- `clearPlaylist` empties the playlist. -/
theorem clearPlaylist_playlist (s : State) : (clearPlaylist s).playlist = [] := rfl

/-- The sequential part of `nextTrack` keeps the selection valid. -/
theorem nextSequential_indexOk (auto : Bool) (s : State) (h : IndexOk s) :
    IndexOk (nextSequential auto s) := by
  unfold nextSequential
  simp only []
  split
  · exact playTrack_indexOk _ s h
  · split
    · exact playTrack_indexOk _ s h
    · split
      · exact h
      · exact h

/-- `nextTrack` keeps the selection valid. -/
theorem nextTrack_indexOk (auto : Bool) (r : RandomDraw) (s : State) (h : IndexOk s) :
    IndexOk (nextTrack auto r s) := by
  unfold nextTrack
  split
  · exact h
  · split
    · split
      · exact playTrack_indexOk _ s h
      · exact nextSequential_indexOk auto s h
    · exact nextSequential_indexOk auto s h

/-- `previousTrack` keeps the selection valid. -/
theorem previousTrack_indexOk (s : State) (h : IndexOk s) : IndexOk (previousTrack s) := by
  unfold previousTrack
  simp only []
  split
  · exact h
  · split
    · exact playTrack_indexOk _ s h
    · split
      · exact playTrack_indexOk _ s h
      · exact h

/-- Adding a local file keeps the selection valid. -/
theorem addLocalFile_indexOk (id : String) (file : File) (s : State) (h : IndexOk s) :
    IndexOk (addLocalFile id file s) := by
  unfold addLocalFile
  apply addEntry_indexOk
  have hp : (saveFileBlob id file s).playlist = s.playlist := by
    unfold saveFileBlob; split <;> rfl
  have hi : (saveFileBlob id file s).currentIndex = s.currentIndex := by
    unfold saveFileBlob; split <;> rfl
  unfold IndexOk at *
  simpa [registerObjectUrl, createObjectURL, hp, hi] using h

/-- Adding a remote entry keeps the selection valid, also when the call throws. -/
theorem addRemoteEntry_indexOk (h : Host) (id src : String) (s : State) (hs : IndexOk s) :
    IndexOk (addRemoteEntry h id src s).state := by
  unfold addRemoteEntry
  split
  · exact hs
  · split
    · exact hs
    · exact addEntry_indexOk _ s hs

/-- C3. In every state reachable from an empty playlist with nothing selected
by adding entries (local files or remote URLs), `removeTrack`, `clearPlaylist`,
`playTrack`, `nextTrack` and `previousTrack` with arbitrary integer arguments
and arbitrary loop and shuffle flags, `currentIndex` is -1 or satisfies
0 <= currentIndex < playlist.length. -/
theorem reachable_currentIndex_valid (s : State) (h : Reachable s) :
    s.currentIndex = -1 ∨ (0 ≤ s.currentIndex ∧ s.currentIndex < s.playlist.length) := by
  show IndexOk s
  induction h with
  | start s hp hi => left; exact hi
  | addLocal id file s _ ih => exact addLocalFile_indexOk id file s ih
  | addRemote h id src s _ ih => exact addRemoteEntry_indexOk h id src s ih
  | remove index s _ ih => exact removeTrack_indexOk index s ih
  | clear s _ _ => left; rfl
  | select index s _ ih => exact playTrack_indexOk index s ih
  | next auto r s _ ih => exact nextTrack_indexOk auto r s ih
  | previous s _ ih => exact previousTrack_indexOk s ih
  | loopClick s _ ih => exact ih
  | shuffleClick s _ ih => exact ih

/-- C3, at an example: three local files added to a fresh page, the last selected. -/
theorem reachable_currentIndex_valid_witness :
    Reachable threeTracks ∧
    (threeTracks.currentIndex = -1 ∨
      (0 ≤ threeTracks.currentIndex ∧ threeTracks.currentIndex < threeTracks.playlist.length)) :=
  have hr : Reachable threeTracks :=
    Reachable.select 2 _ (Reachable.addLocal "id-3" songFile _ (Reachable.addLocal "id-2" clipFile _
      (Reachable.addLocal "id-1" songFile _ (Reachable.start freshState rfl rfl))))
  ⟨hr, reachable_currentIndex_valid threeTracks hr⟩

/-! ## Advancing -/

/-- The picked candidate is one of the candidates. -/
theorem pick_mem (r : RandomDraw) (xs : List Nat) (h : xs ≠ []) : pick r xs h ∈ xs := by
  unfold pick
  exact List.get_mem _ _ _

/-- A candidate is a valid index other than `currentIndex`. -/
theorem mem_candidates (s : State) (k : Nat) :
    k ∈ candidates s ↔ k < s.playlist.length ∧ (k : Int) ≠ s.currentIndex := by
  unfold candidates
  simp [List.mem_filter]

/-- With more than one entry there is a candidate. -/
theorem candidates_ne_nil (s : State) (hlen : 1 < s.playlist.length) : candidates s ≠ [] := by
  intro h
  by_cases h0 : s.currentIndex = 0
  · have : 1 ∈ candidates s := (mem_candidates s 1).mpr ⟨hlen, by omega⟩
    rw [h] at this
    exact absurd this (List.not_mem_nil _)
  · have : 0 ∈ candidates s := (mem_candidates s 0).mpr ⟨by omega, by
      intro h1; exact h0 (by simpa using h1.symm)⟩
    rw [h] at this
    exact absurd this (List.not_mem_nil _)

/-- C8. For a playlist with more than one entry, any `currentIndex` c (valid or
not) and any draw r in [0,1), `nextTrack(true)` with shuffle enabled selects a
valid index of the playlist that is different from c. -/
theorem nextTrack_shuffle_avoids_current (s : State) (r : RandomDraw)
    (hlen : 1 < s.playlist.length) (hs : s.shuffleMode = true) :
    0 ≤ (nextTrack true r s).currentIndex ∧
    (nextTrack true r s).currentIndex < (nextTrack true r s).playlist.length ∧
    (nextTrack true r s).currentIndex ≠ s.currentIndex := by
  have hne : candidates s ≠ [] := candidates_ne_nil s hlen
  have hlen0 : ¬ s.playlist.length = 0 := by omega
  have hnext : nextTrack true r s = playTrack (pick r (candidates s) hne) s := by
    unfold nextTrack
    simp [hlen0, hs, hne]
  have hmem := (mem_candidates s _).mp (pick_mem r (candidates s) hne)
  have hguard : ¬ (((pick r (candidates s) hne : Nat) : Int) < 0 ∨
      ((pick r (candidates s) hne : Nat) : Int) ≥ s.playlist.length) := by omega
  rw [hnext, playTrack_currentIndex, playTrack_playlist, if_neg hguard]
  exact ⟨by omega, by omega, hmem.2⟩

/-- C8, at an example: two tracks, the first selected, shuffle on, the draw 1/2. -/
theorem nextTrack_shuffle_avoids_current_witness :
    (1 < twoTracksShuffled.playlist.length ∧ twoTracksShuffled.shuffleMode = true) ∧
    0 ≤ (nextTrack true halfDraw twoTracksShuffled).currentIndex ∧
    (nextTrack true halfDraw twoTracksShuffled).currentIndex <
      (nextTrack true halfDraw twoTracksShuffled).playlist.length ∧
    (nextTrack true halfDraw twoTracksShuffled).currentIndex ≠ twoTracksShuffled.currentIndex :=
  ⟨by decide,
    nextTrack_shuffle_avoids_current twoTracksShuffled halfDraw (by decide) (by decide)⟩

/-- What `nextTrack` does when the call is not a shuffled automatic advance. -/
theorem nextTrack_eq_nextSequential (s : State) (auto : Bool) (r : RandomDraw)
    (hne : s.playlist ≠ []) (hseq : s.shuffleMode = false ∨ auto = false) :
    nextTrack auto r s = nextSequential auto s := by
  have hlen0 : ¬ s.playlist.length = 0 := by
    intro h; exact hne (List.length_eq_zero.mp h)
  unfold nextTrack
  rcases hseq with h | h <;> simp [hlen0, h]

/-- C9. On a non-empty playlist, when the call is not a shuffled automatic
advance (shuffle off, or `auto = false`), `nextTrack` sets `currentIndex` to
`currentIndex + 1` if that is in range; otherwise to 0 if playlist-loop is on;
otherwise it leaves `currentIndex` unchanged, and then a manual call pauses the
media element and sets its time to 0 while an automatic call changes nothing.
On an empty playlist `nextTrack` changes nothing. The selection is assumed to
be -1 or more, as it is in every reachable state. -/
theorem nextTrack_sequential (s : State) (auto : Bool) (r : RandomDraw)
    (hidx : -1 ≤ s.currentIndex) :
    (s.playlist = [] → nextTrack auto r s = s) ∧
    (s.playlist ≠ [] → (s.shuffleMode = false ∨ auto = false) →
      (s.currentIndex + 1 < s.playlist.length →
        (nextTrack auto r s).currentIndex = s.currentIndex + 1) ∧
      (¬ s.currentIndex + 1 < s.playlist.length → s.loopPlaylist = true →
        (nextTrack auto r s).currentIndex = 0) ∧
      (¬ s.currentIndex + 1 < s.playlist.length → s.loopPlaylist = false →
        (nextTrack auto r s).currentIndex = s.currentIndex ∧
        (nextTrack auto r s).playlist = s.playlist ∧
        (auto = false → (nextTrack auto r s).mediaElement.paused = true ∧
          (nextTrack auto r s).mediaElement.currentTime = 0) ∧
        (auto = true → nextTrack auto r s = s))) := by
  constructor
  · intro he
    unfold nextTrack
    simp [he]
  · intro hne hseq
    rw [nextTrack_eq_nextSequential s auto r hne hseq]
    have hpos : 0 < s.playlist.length := List.length_pos.mpr hne
    refine ⟨?_, ?_, ?_⟩
    · intro hin
      unfold nextSequential
      simp only [hin, if_true]
      rw [playTrack_currentIndex, if_neg (by omega)]
    · intro hout hloop
      unfold nextSequential
      simp only [hout, if_false, hloop, if_true]
      rw [playTrack_currentIndex, if_neg (by omega)]
    · intro hout hloop
      unfold nextSequential
      simp only [hout, if_false, hloop]
      cases auto <;> simp [MediaElement.pause]

/-- C9, at an example: a manual `nextTrack` on the last of three tracks, loop off. -/
theorem nextTrack_sequential_witness :
    (-1 ≤ threeTracks.currentIndex ∧ threeTracks.playlist ≠ [] ∧
      ¬ threeTracks.currentIndex + 1 < threeTracks.playlist.length) ∧
    (nextTrack false halfDraw threeTracks).currentIndex = threeTracks.currentIndex ∧
    (nextTrack false halfDraw threeTracks).mediaElement.paused = true ∧
    (nextTrack false halfDraw threeTracks).mediaElement.currentTime = 0 :=
  have hne : threeTracks.playlist ≠ [] := List.ne_nil_of_length_pos (by decide)
  have h := ((nextTrack_sequential threeTracks false halfDraw (by decide)).2
    hne (Or.inl rfl)).2.2 (by decide) rfl
  ⟨⟨by decide, hne, by decide⟩, h.1, (h.2.2.1 rfl).1, (h.2.2.1 rfl).2⟩

/-! ## Adding files, then removing the first -/

/-- The selection after `addEntry`: the new entry when nothing was selected. -/
theorem addEntry_currentIndex (entry : Obj) (s : State) :
    (addEntry entry s).currentIndex =
      if s.currentIndex = -1 then (s.playlist.length : Int) else s.currentIndex := by
  unfold addEntry
  simp only [saveState_currentIndex]
  split
  · rw [playTrack_currentIndex]
    simp only [saveState_playlist, saveState_currentIndex, List.length_append,
      List.length_singleton]
    rw [if_neg (by push_cast; omega)]
    push_cast; omega
  · rfl

@[simp]
theorem addEntry_files (entry : Obj) (s : State) : (addEntry entry s).files = s.files := by
  unfold addEntry
  simp only []
  split <;> simp

@[simp]
theorem addEntry_objectUrlRegistry (entry : Obj) (s : State) :
    (addEntry entry s).objectUrlRegistry = s.objectUrlRegistry := by
  unfold addEntry
  simp only []
  split <;> simp

@[simp]
theorem saveFileBlob_playlist (id : String) (file : File) (s : State) :
    (saveFileBlob id file s).playlist = s.playlist := by
  unfold saveFileBlob; split <;> rfl

@[simp]
theorem saveFileBlob_currentIndex (id : String) (file : File) (s : State) :
    (saveFileBlob id file s).currentIndex = s.currentIndex := by
  unfold saveFileBlob; split <;> rfl

@[simp]
theorem saveFileBlob_objectUrlRegistry (id : String) (file : File) (s : State) :
    (saveFileBlob id file s).objectUrlRegistry = s.objectUrlRegistry := by
  unfold saveFileBlob; split <;> rfl

@[simp]
theorem saveFileBlob_urlSerial (id : String) (file : File) (s : State) :
    (saveFileBlob id file s).urlSerial = s.urlSerial := by
  unfold saveFileBlob; split <;> rfl

@[simp]
theorem playTrack_urlSerial (index : Int) (s : State) :
    (playTrack index s).urlSerial = s.urlSerial := by
  unfold playTrack; split <;> rfl

@[simp]
theorem addEntry_urlSerial (entry : Obj) (s : State) :
    (addEntry entry s).urlSerial = s.urlSerial := by
  unfold addEntry
  simp only []
  split <;> simp

/-- Every `addLocalFile` mints one blob URL. -/
theorem addLocalFile_urlSerial (id : String) (file : File) (s : State) :
    (addLocalFile id file s).urlSerial = s.urlSerial + 1 := by
  unfold addLocalFile
  simp [createObjectURL, registerObjectUrl]

/-- The playlist after `addLocalFile`. -/
theorem addLocalFile_playlist (id : String) (file : File) (s : State) :
    (addLocalFile id file s).playlist =
      s.playlist ++ [localEntry id file (ObjectUrl.mk s.urlSerial)] := by
  unfold addLocalFile
  simp [createObjectURL, registerObjectUrl]

/-- The selection after `addLocalFile`. -/
theorem addLocalFile_currentIndex (id : String) (file : File) (s : State) :
    (addLocalFile id file s).currentIndex =
      if s.currentIndex = -1 then (s.playlist.length : Int) else s.currentIndex := by
  unfold addLocalFile
  rw [addEntry_currentIndex]
  simp [createObjectURL, registerObjectUrl]

/-- The "files" store after `addLocalFile`. -/
theorem addLocalFile_files (id : String) (file : File) (s : State) :
    (addLocalFile id file s).files = (saveFileBlob id file s).files := by
  unfold addLocalFile
  simp [createObjectURL, registerObjectUrl]

/-- The "files" store after `deleteFileBlob` on a string key. -/
theorem deleteFileBlob_files_str (k : String) (s : State) :
    (deleteFileBlob (some (Json.str k)) s).files =
      s.files.map (fun records => records.filter (fun r => decide (r.id ≠ k))) := by
  unfold deleteFileBlob
  cases hf : s.files <;> simp [hf]

/-- The first statement of `releaseItem` leaves the "files" store alone. -/
theorem releaseItem_cleanup_files (s : State) (item : Obj) :
    (if truthy (item.prop "isObjectUrl") then cleanupObjectUrl (item.prop "src") s else s).files =
      s.files := by
  split <;> simp

/-- Releasing a blob-backed item whose id is the string `k` deletes the records
stored under `k`. -/
theorem releaseItem_files_of_blob (s : State) (item : Obj) (k : String)
    (hb : truthy (item.prop "hasBlob") = true) (hid : item.prop "id" = some (Json.str k)) :
    (releaseItem s item).files =
      s.files.map (fun records => records.filter (fun r => decide (r.id ≠ k))) := by
  unfold releaseItem
  simp only [hb, if_true, hid]
  rw [deleteFileBlob_files_str, releaseItem_cleanup_files]

/-- C10 as stated fails: after two local files are added to a fresh page the
selection is 0 (the first file was selected when it was added), not 1, and
`removeTrack(0)` then resets it to -1, not 0. -/
theorem add_two_remove_first_counterexample :
    twoTracks.currentIndex = 0 ∧ (removeTrack 0 twoTracks).currentIndex = -1 ∧
    ¬ ((removeTrack 0 twoTracks).playlist.length = 1 ∧ twoTracks.currentIndex = 1 ∧
      (removeTrack 0 twoTracks).currentIndex = 0 ∧
      ∀ r ∈ (removeTrack 0 twoTracks).files.getD [], r.id ≠ "id-1") := by
  decide

/-- C10, amended. Starting from an empty playlist with nothing selected, adding
two local files and then calling `removeTrack(0)` leaves a playlist with
exactly 1 entry, the second file's; `currentIndex` is 0 just before the removal
(the first file was selected when it was added) and -1 after it (the selected
track was removed, so playback stops); the first file's record was in the
"files" store before the removal, when the store is available, and no record
under its id is there after it. -/
theorem add_two_remove_first (s : State) (id1 id2 : String) (f1 f2 : File)
    (hp : s.playlist = []) (hi : s.currentIndex = -1) :
    (addLocalFile id2 f2 (addLocalFile id1 f1 s)).playlist.length = 2 ∧
    (addLocalFile id2 f2 (addLocalFile id1 f1 s)).currentIndex = 0 ∧
    (s.files.isSome = true →
      ∃ r ∈ (addLocalFile id2 f2 (addLocalFile id1 f1 s)).files.getD [], r.id = id1) ∧
    (removeTrack 0 (addLocalFile id2 f2 (addLocalFile id1 f1 s))).playlist =
      [localEntry id2 f2 (ObjectUrl.mk (s.urlSerial + 1))] ∧
    (removeTrack 0 (addLocalFile id2 f2 (addLocalFile id1 f1 s))).currentIndex = -1 ∧
    (removeTrack 0 (addLocalFile id2 f2 (addLocalFile id1 f1 s))).mediaElement.paused = true ∧
    ∀ r ∈ (removeTrack 0 (addLocalFile id2 f2 (addLocalFile id1 f1 s))).files.getD [],
      r.id ≠ id1 := by
  have hserial : (addLocalFile id1 f1 s).urlSerial = s.urlSerial + 1 :=
    addLocalFile_urlSerial id1 f1 s
  have hpl1 : (addLocalFile id1 f1 s).playlist =
      [localEntry id1 f1 (ObjectUrl.mk s.urlSerial)] := by
    rw [addLocalFile_playlist, hp]; rfl
  have hci1 : (addLocalFile id1 f1 s).currentIndex = 0 := by
    rw [addLocalFile_currentIndex, hp]; simp [hi]
  have hpl2 : (addLocalFile id2 f2 (addLocalFile id1 f1 s)).playlist =
      [localEntry id1 f1 (ObjectUrl.mk s.urlSerial),
       localEntry id2 f2 (ObjectUrl.mk (s.urlSerial + 1))] := by
    rw [addLocalFile_playlist, hpl1, hserial]; rfl
  have hci2 : (addLocalFile id2 f2 (addLocalFile id1 f1 s)).currentIndex = 0 := by
    rw [addLocalFile_currentIndex, hci1]; simp
  have hv : (0 : Int) ≤ 0 ∧
      (0 : Int) < (addLocalFile id2 f2 (addLocalFile id1 f1 s)).playlist.length := by
    rw [hpl2]; simp
  have he : (addLocalFile id2 f2 (addLocalFile id1 f1 s)).playlist[(0 : Int).toNat]? =
      some (localEntry id1 f1 (ObjectUrl.mk s.urlSerial)) := by
    rw [hpl2]; rfl
  have hsel : 0 ≤ (addLocalFile id2 f2 (addLocalFile id1 f1 s)).currentIndex ∧
      (addLocalFile id2 f2 (addLocalFile id1 f1 s)).currentIndex <
        (addLocalFile id2 f2 (addLocalFile id1 f1 s)).playlist.length := by
    rw [hci2]; exact hv
  have hcur : (removeTrack 0 (addLocalFile id2 f2 (addLocalFile id1 f1 s))).currentIndex = -1 := by
    rw [removeTrack_currentIndex _ 0 hv, hci2]; simp
  have hpaused : (removeTrack 0 (addLocalFile id2 f2
      (addLocalFile id1 f1 s))).mediaElement.paused = true := by
    have := removeTrack_mediaElement_of_selected _ hsel
    rw [hci2] at this
    rw [this]; rfl
  refine ⟨by rw [hpl2]; rfl, hci2, ?_, ?_, hcur, hpaused, ?_⟩
  · intro hsome
    rw [addLocalFile_files]
    unfold saveFileBlob
    rw [addLocalFile_files]
    unfold saveFileBlob
    cases hf : s.files with
    | none => simp [hf] at hsome
    | some records =>
      by_cases h12 : id1 = id2
      · exact ⟨FileRecord.mk id2 f2, by simp, h12.symm⟩
      · exact ⟨FileRecord.mk id1 f1, by simp [h12], rfl⟩
  · rw [removeTrack_playlist _ 0 hv, hpl2]; rfl
  · rw [removeTrack_files _ 0 hv _ he,
      releaseItem_files_of_blob _ (localEntry id1 f1 (ObjectUrl.mk s.urlSerial)) id1 rfl rfl]
    intro r hr
    cases hf : (addLocalFile id2 f2 (addLocalFile id1 f1 s)).files with
    | none => simp [hf] at hr
    | some records =>
      simp only [hf, Option.map_some', Option.getD_some, List.mem_filter,
        decide_eq_true_eq] at hr
      exact hr.2

/-- C10 amended, at the example of the fresh page and the two example files. -/
theorem add_two_remove_first_witness :
    (freshState.playlist = [] ∧ freshState.currentIndex = -1) ∧
    twoTracks.currentIndex = 0 ∧
    (removeTrack 0 twoTracks).playlist = [localEntry "id-2" clipFile (ObjectUrl.mk 1)] ∧
    (removeTrack 0 twoTracks).currentIndex = -1 ∧
    ∀ r ∈ (removeTrack 0 twoTracks).files.getD [], r.id ≠ "id-1" :=
  have h := add_two_remove_first freshState "id-1" "id-2" songFile clipFile rfl rfl
  ⟨⟨rfl, rfl⟩, h.2.1, h.2.2.2.1, h.2.2.2.2.1, h.2.2.2.2.2.2⟩

/-! ## Objects -/

/-- Reading the property just assigned. -/
theorem Obj.prop_assign_same (o : Obj) (k : String) (v : Json) :
    (Obj.assign o k v).prop k = some v := by
  induction o with
  | nil => simp [Obj.assign, Obj.prop, List.lookup]
  | cons p rest ih =>
    obtain ⟨k', v'⟩ := p
    unfold Obj.assign
    by_cases h : k' = k
    · simp [h, Obj.prop, List.lookup]
    · have hb : (k == k') = false := by
        simpa using fun h' : k = k' => h h'.symm
      simp only [h, if_false, Obj.prop, List.lookup, hb]
      exact ih

/-- Reading another property than the one assigned. -/
theorem Obj.prop_assign_ne (o : Obj) (k k' : String) (v : Json) (hne : k' ≠ k) :
    (Obj.assign o k v).prop k' = o.prop k' := by
  induction o with
  | nil =>
    have hb : (k' == k) = false := by simpa using hne
    simp [Obj.assign, Obj.prop, List.lookup, hb]
  | cons p rest ih =>
    obtain ⟨k1, v1⟩ := p
    unfold Obj.assign
    by_cases h : k1 = k
    · subst h
      have hb : (k' == k1) = false := by simpa using hne
      simp [Obj.prop, List.lookup, hb]
    · simp only [h, if_false, Obj.prop, List.lookup]
      cases hk : (k' == k1)
      · exact ih
      · rfl

/-- Assigning a property twice keeps the second value. -/
theorem Obj.assign_assign (o : Obj) (k : String) (v w : Json) :
    Obj.assign (Obj.assign o k v) k w = Obj.assign o k w := by
  induction o with
  | nil => simp [Obj.assign]
  | cons p rest ih =>
    obtain ⟨k1, v1⟩ := p
    by_cases h : k1 = k
    · simp [Obj.assign, h]
    · simp only [Obj.assign, h, if_false]
      rw [ih]

/-- Assigning a property the value it has changes nothing. -/
theorem Obj.assign_self (o : Obj) (k : String) (v : Json) (h : o.prop k = some v) :
    Obj.assign o k v = o := by
  induction o with
  | nil => simp [Obj.prop, List.lookup] at h
  | cons p rest ih =>
    obtain ⟨k1, v1⟩ := p
    by_cases hk : k1 = k
    · subst hk
      simp [Obj.prop, List.lookup] at h
      simp [Obj.assign, h]
    · have hb : (k == k1) = false := by
        simpa using fun h' : k = k1 => hk h'.symm
      simp only [Obj.prop, List.lookup, hb] at h
      simp only [Obj.assign, hk, if_false]
      rw [ih h]

/-! ## Session restore -/

/-- C5, the failing inputs: on a playlist document that is valid JSON but not
a list of track records (the number 5, the object {}, the list [null])
`restorePlaylistFromStorage` throws (its promise rejects) instead of treating
the document as "no saved state". -/
theorem restorePlaylistFromStorage_throws_on_non_list :
    (restorePlaylistFromStorage (startupOn (Json.num 5))).isThrow = true ∧
    (restorePlaylistFromStorage (startupOn (Json.obj []))).isThrow = true ∧
    (restorePlaylistFromStorage (startupOn (Json.arr [Json.null]))).isThrow = true := by
  decide

/-- C6 as stated fails: a stored entry that claims `hasBlob`, whose binary
record is absent and which carries a `src`, is kept by
`restorePlaylistFromStorage`, with `hasBlob` true and `isObjectUrl` false. -/
theorem restore_keeps_stale_blob_entry_counterexample :
    getFileBlob (some (Json.str "gone")) (startupOn staleDocument) = none ∧
    (restorePlaylistFromStorage (startupOn staleDocument)).isThrow = false ∧
    (restorePlaylistFromStorage (startupOn staleDocument)).state.playlist.map
      (fun e => (truthy (e.prop "hasBlob"), truthy (e.prop "isObjectUrl"))) = [(true, false)] := by
  decide

/-- `getFileBlob` reads the "files" store only. -/
theorem getFileBlob_congr (id : Option Json) (s1 s2 : State) (h : s1.files = s2.files) :
    getFileBlob id s1 = getFileBlob id s2 := by
  unfold getFileBlob
  rw [h]

/-- The text of a blob URL is truthy. -/
theorem truthy_href (u : ObjectUrl) : truthy (some (Json.str u.href)) = true := by
  simp [truthy, Json.truthy, u.href_ne_empty]

/-! ## Save, then restore -/

/-- Writing a property back with the value read from it changes nothing. -/
theorem Obj.assignOpt_self (o : Obj) (k : String) : Obj.assignOpt o k (o.prop k) = o := by
  cases h : o.prop k with
  | some v => exact Obj.assign_self o k v h
  | none =>
    unfold Obj.assignOpt
    simp only []
    induction o with
    | nil => rfl
    | cons p rest ih =>
      obtain ⟨k1, v1⟩ := p
      simp only [Obj.prop, List.lookup] at h
      cases hk : (k == k1)
      · rw [hk] at h
        have hne : k1 ≠ k := by
          intro h'; subst h'; simp at hk
        simp only [List.filter, hne, ne_eq, not_false_eq_true, decide_True]
        rw [ih h]
      · rw [hk] at h
        exact absurd h (by simp)

/-- An entry that is not blob-backed is written as it is. -/
theorem sanitizeItem_of_not_blob (e : Obj) (hb : truthy (e.prop "hasBlob") = false) :
    sanitizeItem e = e := by
  unfold sanitizeItem
  simp only [hb, Bool.false_eq_true, if_false]
  exact Obj.assignOpt_self e "src"

/-- A blob-backed entry is written with a null `src`. -/
theorem sanitizeItem_of_blob (e : Obj) (hb : truthy (e.prop "hasBlob") = true) :
    sanitizeItem e = Obj.assign e "src" Json.null := by
  unfold sanitizeItem
  simp only [hb, if_true]
  rfl

/-- One turn of the restore loop on a written entry that does not survive. -/
theorem restoreItem_sanitized_dropped (e : Obj) (acc : State × List Obj)
    (h : survivesReload acc.1 e = false) :
    restoreItem (Json.obj (sanitizeItem e)) acc = some acc := by
  unfold survivesReload at h
  unfold restoreItem
  by_cases hb : truthy (e.prop "hasBlob") = true
  · simp only [hb, if_true] at h
    rw [sanitizeItem_of_blob e hb]
    have h1 : Obj.prop (Obj.assign e "src" Json.null) "hasBlob" = e.prop "hasBlob" :=
      Obj.prop_assign_ne _ _ _ _ (by decide)
    have h2 : Obj.prop (Obj.assign e "src" Json.null) "id" = e.prop "id" :=
      Obj.prop_assign_ne _ _ _ _ (by decide)
    have h3 : getFileBlob (e.prop "id") acc.1 = none := by
      cases hg : getFileBlob (e.prop "id") acc.1 with
      | none => rfl
      | some _ => simp [hg] at h
    simp only [h1, hb, if_true, h2, h3]
    unfold pushIfSrc
    rw [Obj.prop_assign_same]
    rfl
  · have hb' : truthy (e.prop "hasBlob") = false := by simpa using hb
    simp only [hb', Bool.false_eq_true, if_false] at h
    rw [sanitizeItem_of_not_blob e hb']
    simp only [hb', Bool.false_eq_true, if_false]
    unfold pushIfSrc
    simp [h]

/-- One turn of the restore loop on a written entry that is not blob-backed and
has a truthy `src`. -/
theorem restoreItem_sanitized_remote (e : Obj) (acc : State × List Obj)
    (hb : truthy (e.prop "hasBlob") = false) (h : survivesReload acc.1 e = true) :
    restoreItem (Json.obj (sanitizeItem e)) acc = some (acc.1, acc.2 ++ [e]) := by
  unfold survivesReload at h
  simp only [hb, Bool.false_eq_true, if_false] at h
  unfold restoreItem
  rw [sanitizeItem_of_not_blob e hb]
  simp only [hb, Bool.false_eq_true, if_false]
  unfold pushIfSrc
  simp [h]

/-- One turn of the restore loop on a written blob-backed entry whose record is
present. -/
theorem restoreItem_sanitized_blob (e : Obj) (acc : State × List Obj)
    (hb : truthy (e.prop "hasBlob") = true) (h : survivesReload acc.1 e = true) :
    restoreItem (Json.obj (sanitizeItem e)) acc =
      some (registerObjectUrl (createObjectURL acc.1).1 (createObjectURL acc.1).2,
        acc.2 ++ [Obj.assign (Obj.assign e "src" (Json.str (createObjectURL acc.1).1.href))
          "isObjectUrl" (Json.bool true)]) := by
  unfold survivesReload at h
  simp only [hb, if_true] at h
  unfold restoreItem
  rw [sanitizeItem_of_blob e hb]
  have h1 : Obj.prop (Obj.assign e "src" Json.null) "hasBlob" = e.prop "hasBlob" :=
    Obj.prop_assign_ne _ _ _ _ (by decide)
  have h2 : Obj.prop (Obj.assign e "src" Json.null) "id" = e.prop "id" :=
    Obj.prop_assign_ne _ _ _ _ (by decide)
  simp only [h1, hb, if_true, h2]
  cases hg : getFileBlob (e.prop "id") acc.1 with
  | none => simp [hg] at h
  | some _ =>
    simp only []
    rw [Obj.assign_assign]

/-- Whether an entry survives depends on the "files" store only. -/
theorem survivesReload_congr (s1 s2 : State) (h : s1.files = s2.files) (e : Obj) :
    survivesReload s1 e = survivesReload s2 e := by
  unfold survivesReload
  rw [getFileBlob_congr _ s1 s2 h]

/-- `RestoredFrom` from a later start is `RestoredFrom` from an earlier one. -/
theorem RestoredFrom.of_le (t1 t2 t' : State) (e r : Obj) (hle : t1.urlSerial ≤ t2.urlSerial)
    (h : RestoredFrom t2 t' e r) : RestoredFrom t1 t' e r := by
  unfold RestoredFrom at *
  split
  · rename_i hb
    simp only [hb, if_true] at h
    obtain ⟨u, h1, h2, h3, h4⟩ := h
    exact ⟨u, by omega, h2, h3, h4⟩
  · rename_i hb
    simpa [hb] using h

/-- A restored entry has the id, title and kind of the saved entry. -/
theorem RestoredFrom.entryCore_eq (t t' : State) (e r : Obj) (h : RestoredFrom t t' e r) :
    entryCore r = entryCore e := by
  unfold RestoredFrom at h
  split at h
  · obtain ⟨u, _, _, _, hr⟩ := h
    subst hr
    unfold entryCore
    rw [Obj.prop_assign_ne _ _ "id" _ (by decide), Obj.prop_assign_ne _ _ "id" _ (by decide),
      Obj.prop_assign_ne _ _ "title" _ (by decide), Obj.prop_assign_ne _ _ "title" _ (by decide),
      Obj.prop_assign_ne _ _ "kind" _ (by decide), Obj.prop_assign_ne _ _ "kind" _ (by decide)]
  · rw [h]

/-- Restored entries have, in order, the ids, titles and kinds of the saved ones. -/
theorem forall₂_restoredFrom_entryCore (t t' : State) (xs rs : List Obj)
    (h : List.Forall₂ (RestoredFrom t t') xs rs) : rs.map entryCore = xs.map entryCore := by
  induction h with
  | nil => rfl
  | cons hab _ ih =>
    simp only [List.map_cons]
    rw [ih, RestoredFrom.entryCore_eq _ _ _ _ hab]

/-- The restore loop over the written form of the entries `P`: it does not
throw, and it appends to `restored` the surviving entries of `P`, in order. -/
theorem restoreLoop_sanitized (P : List Obj) :
    ∀ acc : State × List Obj, ∃ (t' : State) (rs : List Obj),
      restoreLoop ((P.map sanitizeItem).map Json.obj) acc = Completion.ok t' ∧
      t'.playlist = acc.2 ++ rs ∧ t'.files = acc.1.files ∧
      acc.1.urlSerial ≤ t'.urlSerial ∧
      (∀ u ∈ acc.1.objectUrlRegistry, u ∈ t'.objectUrlRegistry) ∧
      List.Forall₂ (RestoredFrom acc.1 t') (P.filter (survivesReload acc.1)) rs := by
  induction P with
  | nil =>
    intro acc
    exact ⟨{ acc.1 with playlist := acc.2 }, [], rfl, by simp, rfl, le_refl _,
      fun u hu => hu, List.Forall₂.nil⟩
  | cons e rest ih =>
    intro acc
    by_cases hs : survivesReload acc.1 e = true
    · by_cases hb : truthy (e.prop "hasBlob") = true
      · -- a blob-backed entry with its record: a URL is minted
        obtain ⟨t', rs, hrun, hpl, hfiles, hser, hreg, hall⟩ :=
          ih (registerObjectUrl (createObjectURL acc.1).1 (createObjectURL acc.1).2,
            acc.2 ++ [Obj.assign (Obj.assign e "src" (Json.str (createObjectURL acc.1).1.href))
              "isObjectUrl" (Json.bool true)])
        have hf1 : (registerObjectUrl (createObjectURL acc.1).1 (createObjectURL acc.1).2).files =
            acc.1.files := rfl
        have hs1 : (registerObjectUrl (createObjectURL acc.1).1
            (createObjectURL acc.1).2).urlSerial = acc.1.urlSerial + 1 := rfl
        have hmem : (createObjectURL acc.1).1 ∈ (registerObjectUrl (createObjectURL acc.1).1
            (createObjectURL acc.1).2).objectUrlRegistry := by
          unfold registerObjectUrl
          simp only []
          split
          · assumption
          · simp
        have hsub : ∀ u ∈ acc.1.objectUrlRegistry, u ∈ (registerObjectUrl
            (createObjectURL acc.1).1 (createObjectURL acc.1).2).objectUrlRegistry := by
          intro u hu
          unfold registerObjectUrl
          simp only []
          split
          · exact hu
          · exact List.mem_append_left _ hu
        dsimp only at hpl hfiles hser hreg hall
        refine ⟨t', Obj.assign (Obj.assign e "src" (Json.str (createObjectURL acc.1).1.href))
          "isObjectUrl" (Json.bool true) :: rs, ?_, ?_, ?_, ?_, ?_, ?_⟩
        · simp only [List.map_cons, restoreLoop, restoreItem_sanitized_blob e acc hb hs]
          exact hrun
        · rw [hpl]; simp
        · rw [hfiles, hf1]
        · simp only [hs1] at hser; omega
        · exact fun u hu => hreg u (hsub u hu)
        · simp only [List.filter_cons, hs, if_true]
          refine List.Forall₂.cons ?_ ?_
          · unfold RestoredFrom
            simp only [hb, if_true]
            refine ⟨(createObjectURL acc.1).1, le_refl _, ?_, hreg _ hmem, rfl⟩
            simp only [hs1] at hser
            exact hser
          · have hfun : survivesReload acc.1 =
                survivesReload (registerObjectUrl (createObjectURL acc.1).1
                  (createObjectURL acc.1).2) :=
              funext (survivesReload_congr _ _ hf1.symm)
            rw [hfun]
            exact List.Forall₂.imp (fun a b hab =>
              RestoredFrom.of_le _ _ _ a b (by rw [hs1]; omega) hab) hall
      · -- an entry without a blob and with a src: pushed as it is
        have hb' : truthy (e.prop "hasBlob") = false := by simpa using hb
        obtain ⟨t', rs, hrun, hpl, hfiles, hser, hreg, hall⟩ := ih (acc.1, acc.2 ++ [e])
        refine ⟨t', e :: rs, ?_, ?_, hfiles, hser, hreg, ?_⟩
        · simp only [List.map_cons, restoreLoop, restoreItem_sanitized_remote e acc hb' hs]
          exact hrun
        · rw [hpl]; simp
        · simp only [List.filter_cons, hs, if_true]
          refine List.Forall₂.cons ?_ hall
          unfold RestoredFrom
          simp [hb']
    · -- an entry that does not survive: nothing is pushed
      have hs' : survivesReload acc.1 e = false := by simpa using hs
      obtain ⟨t', rs, hrun, hpl, hfiles, hser, hreg, hall⟩ := ih acc
      refine ⟨t', rs, ?_, hpl, hfiles, hser, hreg, ?_⟩
      · simp only [List.map_cons, restoreLoop, restoreItem_sanitized_dropped e acc hs']
        exact hrun
      · simp only [List.filter_cons, hs', Bool.false_eq_true, if_false]
        exact hall

/-- C4. Persist, then restore: for every in-memory playlist (of the session
`s`) and every binary-store content (the "files" store of `t`), running
`restorePlaylistFromStorage` in a state `t` whose playlist document is the one
`saveState` wrote does not throw and yields, in the original order, exactly
the entries that are blob-backed with a record present under their id, or not
blob-backed with a non-empty `src`. Each restored entry has the id, title and
kind of the saved one; a blob-backed one carries a blob URL minted during the
restore and registered in the live-handle registry. In particular, when every
entry survives, as many entries come back as were saved. -/
theorem save_restore_roundtrip (s t : State)
    (hdoc : t.storedPlaylist = (saveState s).storedPlaylist) :
    ∃ t' : State, restorePlaylistFromStorage t = Completion.ok t' ∧
      List.Forall₂ (RestoredFrom t t') (s.playlist.filter (survivesReload t)) t'.playlist ∧
      t'.playlist.map entryCore = (s.playlist.filter (survivesReload t)).map entryCore ∧
      ((∀ e ∈ s.playlist, survivesReload t e = true) →
        t'.playlist.length = s.playlist.length ∧
        t'.playlist.map entryCore = s.playlist.map entryCore) := by
  obtain ⟨t', rs, hrun, hpl, _, _, _, hall⟩ := restoreLoop_sanitized s.playlist (t, [])
  have hpl' : t'.playlist = rs := by simpa using hpl
  have hcore : t'.playlist.map entryCore =
      (s.playlist.filter (survivesReload t)).map entryCore := by
    rw [hpl']
    exact forall₂_restoredFrom_entryCore _ _ _ _ hall
  refine ⟨t', ?_, hpl' ▸ hall, hcore, ?_⟩
  · unfold restorePlaylistFromStorage
    rw [hdoc]
    exact hrun
  · intro hsurv
    have hfilter : s.playlist.filter (survivesReload t) = s.playlist :=
      List.filter_eq_self.mpr hsurv
    rw [hfilter] at hcore
    refine ⟨?_, hcore⟩
    have := congrArg List.length hcore
    simpa using this

/-- C4, at an example: the session with three local files is saved and
reopened; three entries come back, with the same ids, titles and kinds. -/
theorem save_restore_roundtrip_witness :
    (reload threeTracks).storedPlaylist = (saveState threeTracks).storedPlaylist ∧
    ∃ t' : State, restorePlaylistFromStorage (reload threeTracks) = Completion.ok t' ∧
      t'.playlist.length = threeTracks.playlist.length ∧
      t'.playlist.map entryCore = threeTracks.playlist.map entryCore :=
  have h := save_restore_roundtrip threeTracks (reload threeTracks) rfl
  ⟨rfl, h.elim fun t' ht => ⟨t', ht.1, ht.2.2.2 (by decide)⟩⟩

/-! ## Clearing the playlist -/

/-- A blob URL is the URL of its own text. -/
theorem isUrlOf_href (u : ObjectUrl) : isUrlOf (some (Json.str u.href)) u = true := by
  simp [isUrlOf, Json.isStr]

/-- `releaseItem` only removes URLs from the registry. -/
theorem releaseItem_registry_subset (s : State) (item : Obj) (u : ObjectUrl)
    (hu : u ∈ (releaseItem s item).objectUrlRegistry) : u ∈ s.objectUrlRegistry := by
  unfold releaseItem at hu
  simp only [] at hu
  split at hu
  · rw [deleteFileBlob_objectUrlRegistry] at hu
    split at hu
    · exact cleanupObjectUrl_registry_subset _ _ _ hu
    · exact hu
  · split at hu
    · exact cleanupObjectUrl_registry_subset _ _ _ hu
    · exact hu

/-- `deleteFileBlob` only removes records. -/
theorem deleteFileBlob_records_subset (id : Option Json) (s : State) (r : FileRecord)
    (hr : r ∈ (deleteFileBlob id s).records) : r ∈ s.records := by
  unfold deleteFileBlob at hr
  split at hr
  · rename_i records k hf
    simp only [State.records, Option.getD_some] at hr
    simp only [State.records, hf, Option.getD_some]
    exact (List.mem_filter.mp hr).1
  · exact hr

/-- `releaseItem` only removes records. -/
theorem releaseItem_records_subset (s : State) (item : Obj) (r : FileRecord)
    (hr : r ∈ (releaseItem s item).records) : r ∈ s.records := by
  have hc : (if truthy (item.prop "isObjectUrl") then cleanupObjectUrl (item.prop "src") s
      else s).records = s.records := by
    unfold State.records
    rw [releaseItem_cleanup_files]
  unfold releaseItem at hr
  simp only [] at hr
  split at hr
  · have := deleteFileBlob_records_subset _ _ _ hr
    rwa [hc] at this
  · rwa [hc] at hr

/-- Releasing a blob-backed item leaves no record under its id. -/
theorem releaseItem_records_removed (s : State) (item : Obj) (k : String)
    (hb : truthy (item.prop "hasBlob") = true) (hid : item.prop "id" = some (Json.str k))
    (r : FileRecord) (hr : r ∈ (releaseItem s item).records) : r.id ≠ k := by
  unfold State.records at hr
  rw [releaseItem_files_of_blob s item k hb hid] at hr
  cases hf : s.files with
  | none => simp [hf] at hr
  | some records =>
    simp only [hf, Option.map_some', Option.getD_some, List.mem_filter,
      decide_eq_true_eq] at hr
    exact hr.2

/-- The `forEach` of `clearPlaylist` only removes URLs from the registry. -/
theorem foldl_releaseItem_registry_subset (l : List Obj) :
    ∀ (s : State) (u : ObjectUrl), u ∈ (l.foldl releaseItem s).objectUrlRegistry →
      u ∈ s.objectUrlRegistry := by
  induction l with
  | nil => intro s u hu; exact hu
  | cons x rest ih =>
    intro s u hu
    exact releaseItem_registry_subset s x u (ih _ u hu)

/-- The `forEach` of `clearPlaylist` only removes records. -/
theorem foldl_releaseItem_records_subset (l : List Obj) :
    ∀ (s : State) (r : FileRecord), r ∈ (l.foldl releaseItem s).records → r ∈ s.records := by
  induction l with
  | nil => intro s r hr; exact hr
  | cons x rest ih =>
    intro s r hr
    exact releaseItem_records_subset s x r (ih _ r hr)

/-- After the `forEach` of `clearPlaylist` no registered URL has the text of
the `src` of a handle-backed item of the list. -/
theorem foldl_releaseItem_not_registered (l : List Obj) :
    ∀ (s : State) (e : Obj), e ∈ l → truthy (e.prop "isObjectUrl") = true →
      ∀ u ∈ (l.foldl releaseItem s).objectUrlRegistry, isUrlOf (e.prop "src") u = false := by
  induction l with
  | nil => intro s e he; exact absurd he (List.not_mem_nil _)
  | cons x rest ih =>
    intro s e he hb u hu
    rcases List.mem_cons.mp he with hx | hrest
    · subst hx
      exact releaseItem_not_registered s e hb u
        (foldl_releaseItem_registry_subset rest _ u hu)
    · exact ih _ e hrest hb u hu

/-- After the `forEach` of `clearPlaylist` no record is stored under the id of
a blob-backed item of the list. -/
theorem foldl_releaseItem_records_removed (l : List Obj) :
    ∀ (s : State) (e : Obj) (k : String), e ∈ l → truthy (e.prop "hasBlob") = true →
      e.prop "id" = some (Json.str k) →
      ∀ r ∈ (l.foldl releaseItem s).records, r.id ≠ k := by
  induction l with
  | nil => intro s e k he; exact absurd he (List.not_mem_nil _)
  | cons x rest ih =>
    intro s e k he hb hid r hr
    rcases List.mem_cons.mp he with hx | hrest
    · subst hx
      exact releaseItem_records_removed s e k hb hid r
        (foldl_releaseItem_records_subset rest _ r hr)
    · exact ih _ e k hrest hb hid r hr

/-- In a state where every URL and record has an owner in the playlist,
`clearPlaylist` leaves the registry and the "files" store empty. -/
theorem clearPlaylist_of_owned (s : State) (h : Owned s) :
    (clearPlaylist s).objectUrlRegistry = [] ∧ (clearPlaylist s).records = [] := by
  constructor
  · apply List.eq_nil_iff_forall_not_mem.mpr
    intro u hu
    have hu' : u ∈ (s.playlist.foldl releaseItem s).objectUrlRegistry := hu
    obtain ⟨e, he, hb, hsrc⟩ := h.1 u (foldl_releaseItem_registry_subset _ s u hu')
    have := foldl_releaseItem_not_registered s.playlist s e he hb u hu'
    rw [hsrc, isUrlOf_href] at this
    exact absurd this (by simp)
  · apply List.eq_nil_iff_forall_not_mem.mpr
    intro r hr
    have hr' : r ∈ (s.playlist.foldl releaseItem s).records := hr
    obtain ⟨e, he, hb, hid⟩ := h.2 r (foldl_releaseItem_records_subset _ s r hr')
    exact foldl_releaseItem_records_removed s.playlist s e r.id he hb hid r hr' rfl

/-- Ownership is a matter of the playlist, the registry and the "files" store. -/
theorem Owned.congr (s s' : State) (hp : s'.playlist = s.playlist)
    (hr : s'.objectUrlRegistry = s.objectUrlRegistry) (hf : s'.files = s.files)
    (h : Owned s) : Owned s' := by
  unfold Owned State.records at *
  rw [hp, hr, hf]
  exact h

/-- Ownership survives a playlist that grows while the stores stay put. -/
theorem Owned.append (s s' : State) (entry : Obj) (hp : s'.playlist = s.playlist ++ [entry])
    (hr : s'.objectUrlRegistry = s.objectUrlRegistry) (hf : s'.files = s.files)
    (h : Owned s) : Owned s' := by
  unfold Owned State.records at *
  rw [hp, hr, hf]
  constructor
  · intro u hu
    obtain ⟨e, he, hrest⟩ := h.1 u hu
    exact ⟨e, List.mem_append_left _ he, hrest⟩
  · intro r hr'
    obtain ⟨e, he, hrest⟩ := h.2 r hr'
    exact ⟨e, List.mem_append_left _ he, hrest⟩

/-- `playTrack` keeps ownership. -/
theorem playTrack_owned (index : Int) (s : State) (h : Owned s) : Owned (playTrack index s) :=
  Owned.congr s _ (playTrack_playlist index s) (playTrack_objectUrlRegistry index s)
    (playTrack_files index s) h

/-- The sequential part of `nextTrack` keeps ownership. -/
theorem nextSequential_owned (auto : Bool) (s : State) (h : Owned s) :
    Owned (nextSequential auto s) := by
  unfold nextSequential
  simp only []
  split
  · exact playTrack_owned _ s h
  · split
    · exact playTrack_owned _ s h
    · split
      · exact Owned.congr s _ rfl rfl rfl h
      · exact h

/-- `nextTrack` keeps ownership. -/
theorem nextTrack_owned (auto : Bool) (r : RandomDraw) (s : State) (h : Owned s) :
    Owned (nextTrack auto r s) := by
  unfold nextTrack
  split
  · exact h
  · split
    · split
      · exact playTrack_owned _ s h
      · exact nextSequential_owned auto s h
    · exact nextSequential_owned auto s h

/-- `previousTrack` keeps ownership. -/
theorem previousTrack_owned (s : State) (h : Owned s) : Owned (previousTrack s) := by
  unfold previousTrack
  simp only []
  split
  · exact h
  · split
    · exact playTrack_owned _ s h
    · split
      · exact playTrack_owned _ s h
      · exact h

/-- `addEntry` keeps ownership. -/
theorem addEntry_owned (entry : Obj) (s : State) (h : Owned s) : Owned (addEntry entry s) :=
  Owned.append s _ entry (addEntry_playlist entry s) (addEntry_objectUrlRegistry entry s)
    (addEntry_files entry s) h

/-- `addRemoteEntry` keeps ownership, also when the call throws. -/
theorem addRemoteEntry_owned (h : Host) (id src : String) (s : State) (hs : Owned s) :
    Owned (addRemoteEntry h id src s).state := by
  unfold addRemoteEntry
  split
  · exact hs
  · split
    · exact hs
    · exact addEntry_owned _ s hs

/-- The registry after `addLocalFile`. -/
theorem addLocalFile_objectUrlRegistry (id : String) (file : File) (s : State) :
    (addLocalFile id file s).objectUrlRegistry =
      if ObjectUrl.mk s.urlSerial ∈ s.objectUrlRegistry then s.objectUrlRegistry
      else s.objectUrlRegistry ++ [ObjectUrl.mk s.urlSerial] := by
  unfold addLocalFile
  simp [createObjectURL, registerObjectUrl]

/-- `addLocalFile` keeps ownership: the new entry owns the new URL and record. -/
theorem addLocalFile_owned (id : String) (file : File) (s : State) (h : Owned s) :
    Owned (addLocalFile id file s) := by
  unfold Owned State.records
  rw [addLocalFile_playlist, addLocalFile_objectUrlRegistry, addLocalFile_files]
  have hnew : localEntry id file (ObjectUrl.mk s.urlSerial) ∈
      s.playlist ++ [localEntry id file (ObjectUrl.mk s.urlSerial)] := by simp
  constructor
  · intro u hu
    have hcases : u ∈ s.objectUrlRegistry ∨ u = ObjectUrl.mk s.urlSerial := by
      split at hu
      · exact Or.inl hu
      · rcases List.mem_append.mp hu with hu | hu
        · exact Or.inl hu
        · exact Or.inr (by simpa using hu)
    rcases hcases with hold | hmint
    · obtain ⟨e, he, hrest⟩ := h.1 u hold
      exact ⟨e, List.mem_append_left _ he, hrest⟩
    · subst hmint
      exact ⟨_, hnew, rfl, rfl⟩
  · intro r hr
    unfold saveFileBlob at hr
    cases hf : s.files with
    | none => simp [hf] at hr
    | some records =>
      simp only [hf, Option.getD_some, List.mem_append, List.mem_filter,
        List.mem_singleton] at hr
      rcases hr with hold | hput
      · obtain ⟨e, he, hrest⟩ := h.2 r (by simp [State.records, hf, hold.1])
        exact ⟨e, List.mem_append_left _ he, hrest⟩
      · subst hput
        exact ⟨_, hnew, rfl, rfl⟩

/-- An entry of the list other than the one at `k` is still there after
`eraseIdx k`. -/
theorem mem_eraseIdx_of_ne (l : List Obj) (k : Nat) (e e0 : Obj) (he : e ∈ l)
    (hk : l[k]? = some e0) (hne : e ≠ e0) : e ∈ l.eraseIdx k := by
  obtain ⟨i, hi⟩ := List.getElem?_of_mem he
  refine List.mem_eraseIdx_iff_getElem?.mpr ⟨i, ?_, hi⟩
  intro hik
  subst hik
  rw [hi] at hk
  exact hne (by simpa using hk)

/-- `removeTrack` keeps ownership: what the removed entry owned is released. -/
theorem removeTrack_owned (index : Int) (s : State) (h : Owned s) :
    Owned (removeTrack index s) := by
  by_cases hg : index < 0 ∨ index ≥ s.playlist.length
  · unfold removeTrack; rw [dif_pos hg]; exact h
  · have hv : 0 ≤ index ∧ index < s.playlist.length := by omega
    have hlt : index.toNat < s.playlist.length := by omega
    have he0 : s.playlist[index.toNat]? = some s.playlist[index.toNat] :=
      List.getElem?_eq_getElem hlt
    unfold Owned
    rw [removeTrack_playlist s index hv, removeTrack_objectUrlRegistry s index hv _ he0]
    have hrec : (removeTrack index s).records =
        (releaseItem { s with playlist := s.playlist.eraseIdx index.toNat }
          s.playlist[index.toNat]).records := by
      unfold State.records
      rw [removeTrack_files s index hv _ he0]
    rw [hrec]
    constructor
    · intro u hu
      have hu0 : u ∈ s.objectUrlRegistry :=
        releaseItem_registry_subset { s with playlist := s.playlist.eraseIdx index.toNat } _ u hu
      obtain ⟨e, he, hb, hsrc⟩ := h.1 u hu0
      by_cases heq : e = s.playlist[index.toNat]
      · have := releaseItem_not_registered _ _ (heq ▸ hb) u hu
        rw [← heq, hsrc, isUrlOf_href] at this
        exact absurd this (by simp)
      · exact ⟨e, mem_eraseIdx_of_ne _ _ e _ he he0 heq, hb, hsrc⟩
    · intro r hr
      have hr0 : r ∈ s.records :=
        releaseItem_records_subset { s with playlist := s.playlist.eraseIdx index.toNat } _ r hr
      obtain ⟨e, he, hb, hid⟩ := h.2 r hr0
      by_cases heq : e = s.playlist[index.toNat]
      · exact absurd rfl
          (releaseItem_records_removed _ _ r.id (heq ▸ hb) (heq ▸ hid) r hr)
      · exact ⟨e, mem_eraseIdx_of_ne _ _ e _ he he0 heq, hb, hid⟩

/-- `clearPlaylist` keeps ownership: nothing is left to own. -/
theorem clearPlaylist_owned (s : State) (h : Owned s) : Owned (clearPlaylist s) := by
  obtain ⟨hr, hf⟩ := clearPlaylist_of_owned s h
  unfold Owned
  rw [hr, hf]
  exact ⟨fun u hu => absurd hu (List.not_mem_nil _),
    fun r hr' => absurd hr' (List.not_mem_nil _)⟩

/-- Every state reachable from empty stores satisfies ownership. -/
theorem reachableFromEmpty_owned (s : State) (h : ReachableFromEmpty s) : Owned s := by
  induction h with
  | start s hp hi hr hf =>
    unfold Owned
    rw [hr, hf]
    exact ⟨fun u hu => absurd hu (List.not_mem_nil _),
      fun r hr' => absurd hr' (List.not_mem_nil _)⟩
  | addLocal id file s _ ih => exact addLocalFile_owned id file s ih
  | addRemote h id src s _ ih => exact addRemoteEntry_owned h id src s ih
  | remove index s _ ih => exact removeTrack_owned index s ih
  | select index s _ ih => exact playTrack_owned index s ih
  | next auto r s _ ih => exact nextTrack_owned auto r s ih
  | previous s _ ih => exact previousTrack_owned s ih
  | clear s _ ih => exact clearPlaylist_owned s ih

/-- C7. In every state reachable from empty stores by add-local, add-remote,
remove and select operations (and by advancing, retreating and clearing), with
binary-store writes and deletes succeeding, `clearPlaylist` leaves the playlist
empty, `currentIndex` at -1, the media element paused without a `src`, the
live-handle registry empty, and the "files" store without any record. -/
theorem clearPlaylist_empties_everything (s : State) (h : ReachableFromEmpty s) :
    (clearPlaylist s).playlist = [] ∧ (clearPlaylist s).currentIndex = -1 ∧
    (clearPlaylist s).mediaElement.paused = true ∧
    (clearPlaylist s).mediaElement.src = SrcAttr.absent ∧
    (clearPlaylist s).objectUrlRegistry = [] ∧
    ∀ records, (clearPlaylist s).files = some records → records = [] := by
  obtain ⟨hr, hf⟩ := clearPlaylist_of_owned s (reachableFromEmpty_owned s h)
  refine ⟨rfl, rfl, rfl, rfl, hr, ?_⟩
  intro records hrec
  unfold State.records at hf
  rw [hrec] at hf
  exact hf

/-- C7, at an example: three local files added over empty stores, the last
selected; after `clearPlaylist` nothing is left. -/
theorem clearPlaylist_empties_everything_witness :
    ReachableFromEmpty threeTracks ∧ threeTracks.objectUrlRegistry.length = 3 ∧
    threeTracks.records.length = 3 ∧
    (clearPlaylist threeTracks).playlist = [] ∧ (clearPlaylist threeTracks).currentIndex = -1 ∧
    (clearPlaylist threeTracks).objectUrlRegistry = [] ∧
    ∀ records, (clearPlaylist threeTracks).files = some records → records = [] :=
  have hr : ReachableFromEmpty threeTracks :=
    ReachableFromEmpty.select 2 _ (ReachableFromEmpty.addLocal "id-3" songFile _
      (ReachableFromEmpty.addLocal "id-2" clipFile _
        (ReachableFromEmpty.addLocal "id-1" songFile _
          (ReachableFromEmpty.start freshState rfl rfl rfl rfl))))
  have h := clearPlaylist_empties_everything threeTracks hr
  ⟨hr, by decide, by decide, h.1, h.2.1, h.2.2.2.2.1, h.2.2.2.2.2⟩

/-! ## Restore on a document that holds no list -/

/-- The restore loop over an array of strings pushes nothing. -/
theorem restoreLoop_strings (cs : List Char) :
    ∀ acc : State × List Obj,
      restoreLoop (cs.map (fun c => Json.str (String.singleton c))) acc =
        Completion.ok { acc.1 with playlist := acc.2 } := by
  induction cs with
  | nil => intro acc; rfl
  | cons c rest ih =>
    intro acc
    simp only [List.map_cons, restoreLoop, restoreItem]
    exact ih acc

/-- What the code does get right of "no saved state": on a missing document, a
text that does not parse, the document `null`, the empty list and any JSON
string, `restorePlaylistFromStorage` does not throw and leaves the playlist
empty. -/
theorem restorePlaylistFromStorage_no_saved_state (s : State) (text : String)
    (h : s.storedPlaylist = Persisted.missing ∨ s.storedPlaylist = Persisted.unparseable text ∨
      s.storedPlaylist = Persisted.json Json.null ∨
      s.storedPlaylist = Persisted.json (Json.arr []) ∨
      s.storedPlaylist = Persisted.json (Json.str text)) :
    restorePlaylistFromStorage s = Completion.ok { s with playlist := [] } := by
  have hv : storedValue s.storedPlaylist = Json.arr [] ∨
      storedValue s.storedPlaylist = Json.str text := by
    rcases h with h | h | h | h | h <;> rw [h] <;> simp [storedValue]
  unfold restorePlaylistFromStorage
  rcases hv with hv | hv
  · rw [hv]; rfl
  · rw [hv]; exact restoreLoop_strings _ (s, [])

/-! ## Titles -/

/-- What `deriveTitleFromSource` returns on a non-empty source when the
decoding it needs succeeds: for a source that parses as an absolute URL, the
decoded last non-empty path segment, or the decoded host name when the path
has no segment, or "Untitled Track" when the host name is empty too; for a
source that does not parse, the decoded last non-empty token of the source
split on "/", or the decoded source when no token remains. -/
theorem deriveTitleFromSource_of_decodes (h : Host) (src : String) (hne : src ≠ "") :
    (∀ pathname hostname title, h.parseUrl src = some (pathname, hostname) →
      h.decodeURIComponent
        (if (lastSegment pathname).getD "" ≠ "" then (lastSegment pathname).getD ""
          else if hostname ≠ "" then hostname else "Untitled Track") = some title →
      deriveTitleFromSource h src = Except.ok title) ∧
    (∀ title, h.parseUrl src = none →
      h.decodeURIComponent ((lastSegment src).getD src) = some title →
      deriveTitleFromSource h src = Except.ok title) := by
  constructor
  · intro pathname hostname title hparse hdec
    unfold deriveTitleFromSource
    simp only [hne, if_false, hparse, hdec]
  · intro title hparse hdec
    unfold deriveTitleFromSource
    simp only [hne, if_false, hparse, hdec]

/-- The example of the spec: the title of
"https://ex.com/music/Song%20One.mp3" is "Song One.mp3". -/
theorem deriveTitleFromSource_example :
    deriveTitleFromSource exampleHost "https://ex.com/music/Song%20One.mp3" =
      Except.ok "Song One.mp3" := by
  rfl

/-- When `deriveTitleFromSource` throws: exactly when the decoding in the
`catch` block throws, after the source did not parse or the decoding in the
`try` block threw. -/
theorem deriveTitleFromSource_throws_iff (h : Host) (src : String) :
    (∃ e, deriveTitleFromSource h src = Except.error e) ↔
      src ≠ "" ∧ h.decodeURIComponent ((lastSegment src).getD src) = none ∧
      (h.parseUrl src = none ∨
        ∃ pathname hostname, h.parseUrl src = some (pathname, hostname) ∧
          h.decodeURIComponent
            (if (lastSegment pathname).getD "" ≠ "" then (lastSegment pathname).getD ""
              else if hostname ≠ "" then hostname else "Untitled Track") = none) := by
  unfold deriveTitleFromSource
  by_cases hne : src = ""
  · simp [hne]
  · simp only [hne, if_false, ne_eq, not_false_eq_true, true_and]
    cases hfb : h.decodeURIComponent ((lastSegment src).getD src) with
    | some title =>
      cases hparse : h.parseUrl src with
      | none => simp
      | some parts =>
        obtain ⟨pathname, hostname⟩ := parts
        simp only []
        split <;> simp
    | none =>
      cases hparse : h.parseUrl src with
      | none => simp
      | some parts =>
        obtain ⟨pathname, hostname⟩ := parts
        simp only []
        split
        · rename_i title hdec
          simp_all
        · rename_i hdec
          simp_all
          exact ⟨pathname, hostname, ⟨rfl, rfl⟩, hdec⟩

/-- C11, the failing inputs: on the source "%", which is no URL, and on the
source "https://ex.com/100%.mp3", which is one, `deriveTitleFromSource` throws
a URIError instead of returning a title: `decodeURIComponent` throws on a "%"
that no two hexadecimal digits follow, in the `try` block and again, not
caught, in the `catch` block. -/
theorem deriveTitleFromSource_throws_on_malformed_escape :
    decodeURIComponent "%" = none ∧ decodeURIComponent "100%.mp3" = none ∧
    deriveTitleFromSource exampleHost "%" = Except.error "URIError" ∧
    deriveTitleFromSource exampleHost "https://ex.com/100%.mp3" = Except.error "URIError" :=
  ⟨rfl, rfl, rfl, rfl⟩

/-! ## Adding a remote entry -/

/-- A text of white space only is trimmed to the empty string. -/
theorem trim_of_whiteSpace (v : String) (hv : ∀ c ∈ v.toList, isWhiteSpace c = true) :
    trim v = "" := by
  unfold trim
  have h1 : v.toList.dropWhile isWhiteSpace = [] := List.dropWhile_eq_nil_iff.mpr hv
  rw [h1]
  rfl

/-- `addRemoteEntry` on a source whose title is derived: one entry is appended. -/
theorem addRemoteEntry_of_title (h : Host) (id src title : String) (s : State)
    (hne : src ≠ "") (ht : deriveTitleFromSource h src = Except.ok title) :
    addRemoteEntry h id src s = Completion.ok (addEntry (remoteEntry id title src) s) := by
  unfold addRemoteEntry
  simp only [hne, if_false, ht]

/-- C12 as stated fails: `addRemoteEntry` on a string of one space is not a
no-op; it appends an entry (and selects it). -/
theorem addRemoteEntry_whiteSpace_counterexample :
    isWhiteSpace ' ' = true ∧
    (addRemoteEntry exampleHost "id-1" " " freshState).isThrow = false ∧
    freshState.playlist.length = 0 ∧
    (addRemoteEntry exampleHost "id-1" " " freshState).state.playlist.length = 1 ∧
    (addRemoteEntry exampleHost "id-1" " " freshState).state.currentIndex = 0 := by
  decide

/-- C12, amended. `addRemoteEntry` is a no-op on the empty string, and the
submit handler of the add form, which trims the URL field first, is a no-op
when no file is selected and the field is empty or holds only white space:
the whole state (playlist, `currentIndex`, persisted documents) is unchanged.
On every other source for which `deriveTitleFromSource` returns a title,
`addRemoteEntry` appends exactly one entry at the end of the playlist, and so
does the submit handler for the trimmed text of the field. -/
theorem addRemote_noop_or_append (h : Host) (id : String) (s : State) :
    addRemoteEntry h id "" s = Completion.ok s ∧
    (∀ urlInput : String, (∀ c ∈ urlInput.toList, isWhiteSpace c = true) →
      submitAddForm h urlInput [] id s = Completion.ok s) ∧
    (∀ src title : String, src ≠ "" → deriveTitleFromSource h src = Except.ok title →
      ∃ s' : State, addRemoteEntry h id src s = Completion.ok s' ∧
        s'.playlist = s.playlist ++ [remoteEntry id title src]) ∧
    (∀ urlInput title : String, trim urlInput ≠ "" →
      deriveTitleFromSource h (trim urlInput) = Except.ok title →
      ∃ s' : State, submitAddForm h urlInput [] id s = Completion.ok s' ∧
        s'.playlist = s.playlist ++ [remoteEntry id title (trim urlInput)]) := by
  refine ⟨?_, ?_, ?_, ?_⟩
  · unfold addRemoteEntry
    simp
  · intro urlInput hws
    unfold submitAddForm
    simp [trim_of_whiteSpace urlInput hws]
  · intro src title hne ht
    exact ⟨_, addRemoteEntry_of_title h id src title s hne ht, addEntry_playlist _ s⟩
  · intro urlInput title hne ht
    refine ⟨_, ?_, addEntry_playlist _ s⟩
    unfold submitAddForm
    simp only [hne, false_and, if_false, List.foldl_nil]
    exact addRemoteEntry_of_title h id _ title s hne ht

/-- C12 amended, at examples: the submit handler on a field of white space
changes nothing, and `addRemoteEntry` on the URL of the spec appends its entry. -/
theorem addRemote_noop_or_append_witness :
    (∀ c ∈ "  \t ".toList, isWhiteSpace c = true) ∧
    submitAddForm exampleHost "  \t " [] "id-1" freshState = Completion.ok freshState ∧
    ∃ s' : State,
      addRemoteEntry exampleHost "id-1" "https://ex.com/music/Song%20One.mp3" freshState =
        Completion.ok s' ∧
      s'.playlist = freshState.playlist ++
        [remoteEntry "id-1" "Song One.mp3" "https://ex.com/music/Song%20One.mp3"] :=
  have h := addRemote_noop_or_append exampleHost "id-1" freshState
  ⟨by decide, h.2.1 "  \t " (by decide),
    h.2.2.1 "https://ex.com/music/Song%20One.mp3" "Song One.mp3" (by decide) rfl⟩

/-! ## Restoring the settings -/

@[simp]
theorem restoreBackgroundImage_mediaElement (s : State) (a : Assets) :
    (restoreBackgroundImage s a).1.mediaElement = s.mediaElement := by
  unfold restoreBackgroundImage
  split
  · split <;> rfl
  · rfl

@[simp]
theorem restoreAudioArt_mediaElement (s : State) (a : Assets) :
    (restoreAudioArt s a).1.mediaElement = s.mediaElement := by
  unfold restoreAudioArt
  split
  · split <;> rfl
  · rfl

/-- The volume `restoreSettings` applies is the one its `try`/`catch`
statement sets. -/
theorem restoreSettings_volume_eq (s : State) (a : Assets) :
    (restoreSettings s a).1.mediaElement.volume =
      match storedSettingsValue s.storedSettings with
      | none => 1
      | some stored => restoredVolume (stored.prop "volume") := by
  unfold restoreSettings
  simp only [restoreAudioArt_mediaElement, restoreBackgroundImage_mediaElement]
  unfold applyStoredSettings
  split <;> rfl

/-- The volume picked from the stored value lies in [0, 1]. -/
theorem restoredVolume_range (volume : Option Json) :
    0 ≤ restoredVolume volume ∧ restoredVolume volume ≤ 1 := by
  unfold restoredVolume
  split
  · split
    · assumption
    · exact ⟨zero_le_one, le_refl _⟩
  · exact ⟨zero_le_one, le_refl _⟩

/-- A document that is not `null` is the value of `stored`. -/
theorem storedSettingsValue_json (doc : Json) :
    storedSettingsValue (Persisted.json doc) = some doc ∨
      (doc.prop "volume" = none ∧
        storedSettingsValue (Persisted.json doc) = some (Json.obj [])) := by
  cases doc <;> simp [storedSettingsValue, Json.prop]

/-- C13. For every persisted settings document, the volume `restoreSettings`
applies lies in [0, 1]: it is the stored volume when that is a number with
0 <= volume <= 1, and it is 1 in every other case (a number out of range, a
value that is no number, a missing field, a missing or unparseable document). -/
theorem restoreSettings_volume (s : State) (a : Assets) :
    0 ≤ (restoreSettings s a).1.mediaElement.volume ∧
    (restoreSettings s a).1.mediaElement.volume ≤ 1 ∧
    (∀ (doc : Json) (q : ℚ), s.storedSettings = Persisted.json doc →
      doc.prop "volume" = some (Json.num q) → 0 ≤ q → q ≤ 1 →
      (restoreSettings s a).1.mediaElement.volume = q) ∧
    (∀ doc : Json, s.storedSettings = Persisted.json doc →
      (∀ q : ℚ, doc.prop "volume" = some (Json.num q) → ¬ (0 ≤ q ∧ q ≤ 1)) →
      (restoreSettings s a).1.mediaElement.volume = 1) ∧
    (s.storedSettings = Persisted.missing →
      (restoreSettings s a).1.mediaElement.volume = 1) ∧
    (∀ text : String, s.storedSettings = Persisted.unparseable text →
      (restoreSettings s a).1.mediaElement.volume = 1) := by
  rw [restoreSettings_volume_eq]
  refine ⟨?_, ?_, ?_, ?_, ?_, ?_⟩
  · split
    · exact zero_le_one
    · exact (restoredVolume_range _).1
  · split
    · exact le_refl _
    · exact (restoredVolume_range _).2
  · intro doc q hdoc hvol h0 h1
    rw [hdoc]
    rcases storedSettingsValue_json doc with hv | ⟨hnone, _⟩
    · rw [hv]
      simp only [hvol, restoredVolume, h0, h1, and_self, if_true]
    · rw [hnone] at hvol
      exact absurd hvol (by simp)
  · intro doc hdoc hbad
    rw [hdoc]
    rcases storedSettingsValue_json doc with hv | ⟨_, hv⟩
    · rw [hv]
      simp only []
      unfold restoredVolume
      split
      · rename_i q hq
        simp only [hbad q hq, if_false]
      · rfl
    · rw [hv]
      rfl
  · intro hdoc
    rw [hdoc]
    rfl
  · intro text hdoc
    rw [hdoc]
    rfl

/-- C13, at the examples of the spec: a stored volume of 1.4 or "loud" falls
back to 1, and a stored volume of 0.5 is applied. -/
theorem restoreSettings_volume_witness :
    (restoreSettings (startupOnSettings (volumeDocument (Json.num 1.4)))
      noAssets).1.mediaElement.volume = 1 ∧
    (restoreSettings (startupOnSettings (volumeDocument (Json.str "loud")))
      noAssets).1.mediaElement.volume = 1 ∧
    (restoreSettings (startupOnSettings (volumeDocument (Json.num 0.5)))
      noAssets).1.mediaElement.volume = 0.5 :=
  ⟨(restoreSettings_volume (startupOnSettings (volumeDocument (Json.num 1.4))) noAssets).2.2.2.1
      (Json.obj [("volume", Json.num 1.4)]) rfl
      (fun q hq => by
        have hq' : (1.4 : ℚ) = q := by
          simpa [Json.prop, Obj.prop, List.lookup] using hq
        rw [← hq']
        norm_num),
    (restoreSettings_volume (startupOnSettings (volumeDocument (Json.str "loud"))) noAssets).2.2.2.1
      (Json.obj [("volume", Json.str "loud")]) rfl
      (fun q hq => by simp [Json.prop, Obj.prop, List.lookup] at hq),
    (restoreSettings_volume (startupOnSettings (volumeDocument (Json.num 0.5))) noAssets).2.2.1
      (Json.obj [("volume", Json.num 0.5)]) 0.5 rfl rfl (by norm_num) (by norm_num)⟩

/-! ## What a restore keeps -/

/-- Whether an object has a live blob depends on the "files" store only. -/
theorem hasLiveBlob_congr (s1 s2 : State) (h : s1.files = s2.files) (o : Obj) :
    hasLiveBlob s1 o = hasLiveBlob s2 o := by
  unfold hasLiveBlob
  rw [getFileBlob_congr _ s1 s2 h]

/-- Which items come back depends on the "files" store only. -/
theorem keptItem_congr (s1 s2 : State) (h : s1.files = s2.files) (item : Json) :
    keptItem s1 item = keptItem s2 item := by
  unfold keptItem
  split
  · rw [hasLiveBlob_congr s1 s2 h]
  · rfl

/-- An item that comes back is an object with a live blob or a truthy `src`. -/
theorem keptItem_eq_some (s : State) (item : Json) (o : Obj) (h : keptItem s item = some o) :
    item = Json.obj o ∧ (hasLiveBlob s o = true ∨ truthy (o.prop "src") = true) := by
  unfold keptItem at h
  split at h
  · rename_i o'
    split at h
    · rename_i hc
      simp only [Option.some.injEq] at h
      subst h
      refine ⟨rfl, ?_⟩
      simpa [Bool.or_eq_true] using hc
    · exact absurd h (by simp)
  · exact absurd h (by simp)

/-- One turn of the restore loop on an item that is not `null`: an item that
is not kept changes nothing, an object with a live blob is pushed with a
freshly minted and registered URL, any other kept object is pushed as it is. -/
theorem restoreItem_of_ne_null (item : Json) (acc : State × List Obj) (h : item ≠ Json.null) :
    restoreItem item acc = some
      (match keptItem acc.1 item with
        | none => acc
        | some o =>
          if hasLiveBlob acc.1 o then
            (registerObjectUrl (createObjectURL acc.1).1 (createObjectURL acc.1).2,
              acc.2 ++ [Obj.assign (Obj.assign o "src" (Json.str (createObjectURL acc.1).1.href))
                "isObjectUrl" (Json.bool true)])
          else (acc.1, acc.2 ++ [o])) := by
  cases item with
  | null => exact absurd rfl h
  | obj o =>
    unfold restoreItem keptItem hasLiveBlob pushIfSrc
    by_cases hb : truthy (Obj.prop o "hasBlob") = true
    · cases hg : getFileBlob (Obj.prop o "id") acc.1 with
      | some record => simp [hb, hg, hasLiveBlob]
      | none =>
        by_cases hsrc : truthy (Obj.prop o "src") = true
        · simp [hb, hg, hsrc, hasLiveBlob]
        · simp [hb, hg, hsrc]
    · by_cases hsrc : truthy (Obj.prop o "src") = true
      · simp [hb, hsrc, hasLiveBlob]
      · simp [hb, hsrc]
  | bool b => rfl
  | num q => rfl
  | str t => rfl
  | arr items => rfl

/-- `RestoredItem` from a later start is `RestoredItem` from an earlier one over
the same "files" store. -/
theorem RestoredItem.of_earlier_start (s1 s2 t' : State) (o r : Obj) (hf : s1.files = s2.files)
    (hle : s1.urlSerial ≤ s2.urlSerial) (h : RestoredItem s2 t' o r) :
    RestoredItem s1 t' o r := by
  unfold RestoredItem at *
  rw [hasLiveBlob_congr s1 s2 hf]
  split
  · rename_i hb
    simp only [hb, if_true] at h
    obtain ⟨u, h1, h2, h3, h4⟩ := h
    exact ⟨u, by omega, h2, h3, h4⟩
  · rename_i hb
    simpa [hb] using h

/-- The restore loop over items none of which is `null`: it does not throw, and
it appends to `restored` the kept items, in order, each as `RestoredItem` says. -/
theorem restoreLoop_of_no_null (items : List Json) :
    ∀ acc : State × List Obj, (∀ item ∈ items, item ≠ Json.null) →
      ∃ (t' : State) (rs : List Obj),
        restoreLoop items acc = Completion.ok t' ∧
        t'.playlist = acc.2 ++ rs ∧ t'.files = acc.1.files ∧
        acc.1.urlSerial ≤ t'.urlSerial ∧
        (∀ u ∈ acc.1.objectUrlRegistry, u ∈ t'.objectUrlRegistry) ∧
        List.Forall₂ (RestoredItem acc.1 t') (items.filterMap (keptItem acc.1)) rs := by
  induction items with
  | nil =>
    intro acc _
    exact ⟨{ acc.1 with playlist := acc.2 }, [], rfl, by simp, rfl, le_refl _,
      fun u hu => hu, List.Forall₂.nil⟩
  | cons item rest ih =>
    intro acc hnn
    have hitem : item ≠ Json.null := hnn item (List.mem_cons_self _ _)
    have hrest : ∀ x ∈ rest, x ≠ Json.null := fun x hx => hnn x (List.mem_cons_of_mem _ hx)
    cases hk : keptItem acc.1 item with
    | none =>
      obtain ⟨t', rs, hrun, hpl, hfiles, hser, hreg, hall⟩ := ih acc hrest
      refine ⟨t', rs, ?_, hpl, hfiles, hser, hreg, ?_⟩
      · simp only [restoreLoop, restoreItem_of_ne_null item acc hitem, hk]
        exact hrun
      · simp only [List.filterMap_cons, hk]
        exact hall
    | some o =>
      by_cases hb : hasLiveBlob acc.1 o = true
      · obtain ⟨t', rs, hrun, hpl, hfiles, hser, hreg, hall⟩ :=
          ih (registerObjectUrl (createObjectURL acc.1).1 (createObjectURL acc.1).2,
            acc.2 ++ [Obj.assign (Obj.assign o "src" (Json.str (createObjectURL acc.1).1.href))
              "isObjectUrl" (Json.bool true)]) hrest
        dsimp only at hpl hfiles hser hreg hall
        have hf1 : (registerObjectUrl (createObjectURL acc.1).1 (createObjectURL acc.1).2).files =
            acc.1.files := rfl
        have hs1 : (registerObjectUrl (createObjectURL acc.1).1
            (createObjectURL acc.1).2).urlSerial = acc.1.urlSerial + 1 := rfl
        have hmem : (createObjectURL acc.1).1 ∈ (registerObjectUrl (createObjectURL acc.1).1
            (createObjectURL acc.1).2).objectUrlRegistry := by
          unfold registerObjectUrl
          simp only []
          split
          · assumption
          · simp
        have hsub : ∀ u ∈ acc.1.objectUrlRegistry, u ∈ (registerObjectUrl
            (createObjectURL acc.1).1 (createObjectURL acc.1).2).objectUrlRegistry := by
          intro u hu
          unfold registerObjectUrl
          simp only []
          split
          · exact hu
          · exact List.mem_append_left _ hu
        refine ⟨t', Obj.assign (Obj.assign o "src" (Json.str (createObjectURL acc.1).1.href))
          "isObjectUrl" (Json.bool true) :: rs, ?_, ?_, ?_, ?_, ?_, ?_⟩
        · simp only [restoreLoop, restoreItem_of_ne_null item acc hitem, hk, hb, if_true]
          exact hrun
        · rw [hpl]; simp
        · rw [hfiles, hf1]
        · rw [hs1] at hser; omega
        · exact fun u hu => hreg u (hsub u hu)
        · simp only [List.filterMap_cons, hk]
          refine List.Forall₂.cons ?_ ?_
          · unfold RestoredItem
            simp only [hb, if_true]
            refine ⟨(createObjectURL acc.1).1, le_refl _, ?_, hreg _ hmem, rfl⟩
            rw [hs1] at hser
            exact hser
          · have hfun : keptItem acc.1 = keptItem (registerObjectUrl (createObjectURL acc.1).1
                (createObjectURL acc.1).2) := funext (keptItem_congr _ _ hf1.symm)
            rw [hfun]
            exact List.Forall₂.imp (fun a b hab =>
              RestoredItem.of_earlier_start _ _ _ a b hf1.symm (by rw [hs1]; omega) hab) hall
      · have hb' : hasLiveBlob acc.1 o = false := by simpa using hb
        obtain ⟨t', rs, hrun, hpl, hfiles, hser, hreg, hall⟩ := ih (acc.1, acc.2 ++ [o]) hrest
        dsimp only at hpl hfiles hser hreg hall
        refine ⟨t', o :: rs, ?_, ?_, hfiles, hser, hreg, ?_⟩
        · simp only [restoreLoop, restoreItem_of_ne_null item acc hitem, hk, hb',
            Bool.false_eq_true, if_false]
          exact hrun
        · rw [hpl]; simp
        · simp only [List.filterMap_cons, hk]
          refine List.Forall₂.cons ?_ hall
          unfold RestoredItem
          simp [hb']

/-- The restore loop over items one of which is `null` leaves the playlist as
it was: the loop throws before `playlist = restored`. -/
theorem restoreLoop_of_null (items : List Json) :
    ∀ acc : State × List Obj, Json.null ∈ items →
      (restoreLoop items acc).state.playlist = acc.1.playlist := by
  induction items with
  | nil => intro acc h; exact absurd h (List.not_mem_nil _)
  | cons item rest ih =>
    intro acc h
    by_cases hitem : item = Json.null
    · subst hitem
      rfl
    · have hrest : Json.null ∈ rest := by
        rcases List.mem_cons.mp h with h | h
        · exact absurd h.symm hitem
        · exact h
      simp only [restoreLoop, restoreItem_of_ne_null item acc hitem]
      rw [ih _ hrest]
      cases keptItem acc.1 item with
      | none => rfl
      | some o =>
        simp only []
        split <;> rfl

/-- Each entry on the right of a `Forall₂` has a partner on the left. -/
theorem forall₂_mem_right {R : Obj → Obj → Prop} {xs rs : List Obj}
    (h : List.Forall₂ R xs rs) (e : Obj) (he : e ∈ rs) : ∃ o ∈ xs, R o e := by
  induction h with
  | nil => exact absurd he (List.not_mem_nil _)
  | cons hab _ ih =>
    rcases List.mem_cons.mp he with he | he
    · subst he
      exact ⟨_, List.mem_cons_self _ _, hab⟩
    · obtain ⟨o, ho, hr⟩ := ih he
      exact ⟨o, List.mem_cons_of_mem _ ho, hr⟩

/-- What `restorePlaylistFromStorage` leaves in the playlist on an array
document: the restore loop's result. -/
theorem restorePlaylistFromStorage_of_arr (s : State) (items : List Json)
    (hv : storedValue s.storedPlaylist = Json.arr items) :
    restorePlaylistFromStorage s = restoreLoop items (s, []) := by
  unfold restorePlaylistFromStorage
  rw [hv]

/-- On a document that is no array, a restore at startup leaves the playlist
empty. -/
theorem restorePlaylistFromStorage_of_not_arr (s : State) (hp : s.playlist = [])
    (hv : ∀ items, storedValue s.storedPlaylist ≠ Json.arr items) :
    (restorePlaylistFromStorage s).state.playlist = [] := by
  unfold restorePlaylistFromStorage
  cases hd : storedValue s.storedPlaylist with
  | arr items => exact absurd hd (hv items)
  | str t =>
    simp only []
    rw [restoreLoop_strings]
    rfl
  | null => exact hp
  | bool b => exact hp
  | num q => exact hp
  | obj fields => exact hp

/-- C6, amended. After `restorePlaylistFromStorage` run at startup (on an empty
in-memory playlist) on any persisted playlist document and any binary-store
content:
every entry kept in the playlist has a truthy `src`, and it either claims a
blob whose record is present under its id, has `isObjectUrl` true and carries
as `src` a blob URL minted during this restore and registered in the
live-handle registry, or it has no such blob and is an object of the document,
kept as stored;
a stored entry that claims `hasBlob`, has no record and carries no truthy `src`
is never kept;
and on a list document without `null` the restore does not throw and the
playlist is, in order, exactly the stored objects that claim a blob whose
record is present (each restored with a freshly minted URL) or carry a truthy
`src` (each kept as stored). -/
theorem restore_kept_entries (s : State) (hp : s.playlist = []) :
    (∀ e ∈ (restorePlaylistFromStorage s).state.playlist,
      truthy (e.prop "src") = true ∧
      ((hasLiveBlob s e = true ∧ e.prop "isObjectUrl" = some (Json.bool true) ∧
          ∃ u : ObjectUrl, s.urlSerial ≤ u.serial ∧
            u ∈ (restorePlaylistFromStorage s).state.objectUrlRegistry ∧
            e.prop "src" = some (Json.str u.href)) ∨
        (hasLiveBlob s e = false ∧
          ∃ items, storedValue s.storedPlaylist = Json.arr items ∧ Json.obj e ∈ items))) ∧
    (∀ o : Obj, truthy (o.prop "hasBlob") = true → getFileBlob (o.prop "id") s = none →
      truthy (o.prop "src") = false → o ∉ (restorePlaylistFromStorage s).state.playlist) ∧
    (∀ items : List Json, storedValue s.storedPlaylist = Json.arr items →
      (∀ item ∈ items, item ≠ Json.null) →
      ∃ t' : State, restorePlaylistFromStorage s = Completion.ok t' ∧
        List.Forall₂ (RestoredItem s t') (items.filterMap (keptItem s)) t'.playlist) := by
  have hexact : ∀ items : List Json, storedValue s.storedPlaylist = Json.arr items →
      (∀ item ∈ items, item ≠ Json.null) →
      ∃ t' : State, restorePlaylistFromStorage s = Completion.ok t' ∧
        List.Forall₂ (RestoredItem s t') (items.filterMap (keptItem s)) t'.playlist := by
    intro items hv hnn
    obtain ⟨t', rs, hrun, hpl, _, _, _, hall⟩ := restoreLoop_of_no_null items (s, []) hnn
    have hpl' : t'.playlist = rs := by simpa using hpl
    exact ⟨t', by rw [restorePlaylistFromStorage_of_arr s items hv]; exact hrun, hpl' ▸ hall⟩
  have hkept : ∀ e ∈ (restorePlaylistFromStorage s).state.playlist,
      truthy (e.prop "src") = true ∧
      ((hasLiveBlob s e = true ∧ e.prop "isObjectUrl" = some (Json.bool true) ∧
          ∃ u : ObjectUrl, s.urlSerial ≤ u.serial ∧
            u ∈ (restorePlaylistFromStorage s).state.objectUrlRegistry ∧
            e.prop "src" = some (Json.str u.href)) ∨
        (hasLiveBlob s e = false ∧
          ∃ items, storedValue s.storedPlaylist = Json.arr items ∧ Json.obj e ∈ items)) := by
    intro e he
    by_cases harr : ∃ items, storedValue s.storedPlaylist = Json.arr items
    · obtain ⟨items, hv⟩ := harr
      by_cases hnull : Json.null ∈ items
      · rw [restorePlaylistFromStorage_of_arr s items hv, restoreLoop_of_null items (s, []) hnull,
          show (s, ([] : List Obj)).1.playlist = s.playlist from rfl, hp] at he
        exact absurd he (List.not_mem_nil _)
      · have hnn : ∀ item ∈ items, item ≠ Json.null := fun item hi h => hnull (h ▸ hi)
        obtain ⟨t', hrun, hall⟩ := hexact items hv hnn
        rw [hrun] at he ⊢
        obtain ⟨o, ho, hr⟩ := forall₂_mem_right hall e he
        obtain ⟨item, hitem, hk⟩ := List.mem_filterMap.mp ho
        obtain ⟨hobj, hwhy⟩ := keptItem_eq_some s item o hk
        unfold RestoredItem at hr
        by_cases hb : hasLiveBlob s o = true
        · simp only [hb, if_true] at hr
          obtain ⟨u, hlo, _, hreg, hr⟩ := hr
          subst hr
          have hsrc : Obj.prop (Obj.assign (Obj.assign o "src" (Json.str u.href))
              "isObjectUrl" (Json.bool true)) "src" = some (Json.str u.href) := by
            rw [Obj.prop_assign_ne _ _ _ _ (by decide), Obj.prop_assign_same]
          refine ⟨by rw [hsrc]; exact truthy_href u, Or.inl ⟨?_, Obj.prop_assign_same _ _ _,
            u, hlo, hreg, hsrc⟩⟩
          unfold hasLiveBlob at hb ⊢
          rw [Obj.prop_assign_ne _ _ "hasBlob" _ (by decide),
            Obj.prop_assign_ne _ _ "hasBlob" _ (by decide),
            Obj.prop_assign_ne _ _ "id" _ (by decide),
            Obj.prop_assign_ne _ _ "id" _ (by decide)]
          exact hb
        · have hb' : hasLiveBlob s o = false := by simpa using hb
          simp only [hb', Bool.false_eq_true, if_false] at hr
          subst hr
          refine ⟨?_, Or.inr ⟨hb', items, hv, hobj ▸ hitem⟩⟩
          rcases hwhy with h | h
          · exact absurd h hb
          · exact h
    · have hv : ∀ items, storedValue s.storedPlaylist ≠ Json.arr items :=
        fun items h => harr ⟨items, h⟩
      rw [restorePlaylistFromStorage_of_not_arr s hp hv] at he
      exact absurd he (List.not_mem_nil _)
  refine ⟨hkept, ?_, hexact⟩
  intro o _ _ hsrc ho
  have := (hkept o ho).1
  rw [hsrc] at this
  exact absurd this (by simp)

/-- C6 amended, at the example of the mixed document: of three stored entries
that claim a blob, the one whose record is present comes back with the URL
minted first, registered, and `isObjectUrl` true; the one without record and
with a `src` is kept as stored; the one without record and without `src` is
dropped. -/
theorem restore_kept_entries_witness :
    startupMixed.playlist = [] ∧
    (restorePlaylistFromStorage startupMixed).state.playlist.map
      (fun e => (e.prop "id", e.prop "src", e.prop "isObjectUrl")) =
      [(some (Json.str "kept"), some (Json.str (ObjectUrl.mk 0).href), some (Json.bool true)),
       (some (Json.str "gone"), some (Json.str "https://ex.com/gone.mp3"),
        some (Json.bool false))] ∧
    (restorePlaylistFromStorage startupMixed).state.objectUrlRegistry = [ObjectUrl.mk 0] ∧
    ∀ e ∈ (restorePlaylistFromStorage startupMixed).state.playlist,
      truthy (e.prop "src") = true ∧
      ((hasLiveBlob startupMixed e = true ∧ e.prop "isObjectUrl" = some (Json.bool true) ∧
          ∃ u : ObjectUrl, startupMixed.urlSerial ≤ u.serial ∧
            u ∈ (restorePlaylistFromStorage startupMixed).state.objectUrlRegistry ∧
            e.prop "src" = some (Json.str u.href)) ∨
        (hasLiveBlob startupMixed e = false ∧
          ∃ items, storedValue startupMixed.storedPlaylist = Json.arr items ∧
            Json.obj e ∈ items)) :=
  ⟨rfl, rfl, rfl, (restore_kept_entries startupMixed rfl).1⟩

/-! ## Kinds -/

/-- The kind of the spec's example URL is "audio"; the extension is lowered as
`toLowerCase` does, also for the Kelvin sign; a file's MIME type comes first. -/
theorem detectKind_examples :
    detectKind "https://ex.com/music/Song%20One.mp3" none = "audio" ∧
    detectKind "clip.MKV?t=1#start" none = "video" ∧
    detectKind "clip.mKv" none = "video" ∧
    detectKind "notes.txt" none = "media" ∧
    detectKind "blob:0" (some clipFile) = "video" := by
  decide

end MiniVlc
